import Mathlib

/-!
# Verification of the dynamiq node execution engine and ReAct reasoning loop

This file is a shallow embedding, in Lean 4, of the two core subsystems of the
`dynamiq` repository:

* the node execution engine (`src/dynamiq/nodes/node.py`): dependency
  validation, input/output transformation, caching, retried execution and the
  callback lifecycle of `Node.run`;
* the ReAct reasoning loop (`src/dynamiq/nodes/agents/react.py`): the bounded
  model-call / tool-call cycle with its four inference-mode parsers.

Python values flowing through the engine are modelled by the inductive `Value`
type; Python exceptions are modelled by the `Exc` type and fallible code
returns `Except Exc _`.  Impure collaborators (the jsonpath transformer, the
cache backend, the model capability, the tool dispatcher) are modelled as
explicit environment records; callback observers are modelled as an emitted
event trace (`List Event`), matching the specification's passive-observer
contract.  Definitions whose Python source is not part of the extracted
sources (e.g. `dynamiq/utils`, `dynamiq/runnables`, `agents/base.py`,
`nodes/exceptions.py`) carry a doc comment starting `Modelled from the spec:`
and follow the natural-language specification.
-/

namespace Dynamiq

/-- Execution status of a `RunnableResult`
(`dynamiq.runnables.RunnableStatus`, used throughout `node.py`). -/
inductive RunnableStatus where
  | SUCCESS
  | FAILURE
  | SKIP
deriving DecidableEq, Repr

/-- Model of a dynamically-typed Python value as it flows through the engine:
`None`, booleans, strings, integers, lists, dicts (association lists that keep
insertion order, as Python dicts do) and embedded `RunnableResult`-like
objects (values carrying a `.status` attribute, as stored in the output dicts
of conditional nodes). -/
inductive Value where
  | vnone
  | bool (b : Bool)
  | str (s : String)
  | int (n : Int)
  | list (items : List Value)
  | dict (entries : List (String × Value))
  | res (status : RunnableStatus) (input : Value) (output : Value)

/-- Python truthiness of a `Value` (`if x:`): `None`, `False`, `""`, `0` and
empty containers are falsy; result objects are always truthy. -/
def isTruthy : Value → Bool
  | .vnone => false
  | .bool b => b
  | .str s => decide (s ≠ "")
  | .int n => decide (n ≠ 0)
  | .list items => !items.isEmpty
  | .dict entries => !entries.isEmpty
  | .res _ _ _ => true

/-- Python attribute access `x.status`: defined on result objects only;
`none` models the `AttributeError` raised on any other value. -/
def vStatus : Value → Option RunnableStatus
  | .res s _ _ => some s
  | _ => none

/-- `dynamiq.runnables.RunnableResult`: the uniform outcome envelope
`{status, input, output}` produced by every `Node.run`. -/
structure RunnableResult where
  status : RunnableStatus
  input : Value
  output : Value

/-- Kind tag for the `NodeException` family raised by dependency validation
(`dynamiq.nodes.exceptions`, not in src/; the four classes are apparent from
`node.py`'s imports and raise sites). -/
inductive NodeExcKind where
  | missing
  | failed
  | skipped
  | conditionFailed
deriving DecidableEq, Repr

/-- Model of the Python exceptions that can flow through the engine.
`node` covers the `NodeException` family (carrying the id of the failed
dependency), `recoverableAgent` is `RecoverableAgentException`,
`actionParsing` is `ActionParsingException`, `maxLoopsReached` is
`AgentMaxLoopsReached`, `timeoutErr` is `concurrent.futures.TimeoutError`,
`attributeError` models Python `AttributeError`, and `generic` covers every
other `Exception`. -/
inductive Exc where
  | node (kind : NodeExcKind) (depId : String)
  | recoverableAgent (msg : String)
  | actionParsing (msg : String)
  | maxLoopsReached (msg : String)
  | timeoutErr
  | attributeError
  | generic (msg : String)
deriving DecidableEq, Repr

/-- Modelled from the spec: the exception hierarchy of
`dynamiq/nodes/agents/exceptions.py` (not in src/).  The spec's error
taxonomy makes parsing errors "recoverable" (absorbed into context) and
`ActionParsingException` is raised with `recoverable=True` in `react.py`, so
it counts as a `RecoverableAgentException`; loop exhaustion is
"non-recoverable" per the spec, so `AgentMaxLoopsReached` does not. -/
def isRecoverableAgent : Exc → Bool
  | .recoverableAgent _ => true
  | .actionParsing _ => true
  | _ => false

/-- Membership in the `NodeException` family, which the first `try` block of
`Node.run` catches. -/
def isNodeExc : Exc → Bool
  | .node _ _ => true
  | _ => false

/-- Membership test for `except ActionParsingException` in the reasoning
loop. -/
def isActionParsingExc : Exc → Bool
  | .actionParsing _ => true
  | _ => false

/-- Python `type(e).__name__` for the modelled exceptions. -/
def excTypeName : Exc → String
  | .node .missing _ => "NodeException"
  | .node .failed _ => "NodeFailedException"
  | .node .skipped _ => "NodeSkippedException"
  | .node .conditionFailed _ => "NodeConditionFailedException"
  | .recoverableAgent _ => "RecoverableAgentException"
  | .actionParsing _ => "ActionParsingException"
  | .maxLoopsReached _ => "AgentMaxLoopsReached"
  | .timeoutErr => "TimeoutError"
  | .attributeError => "AttributeError"
  | .generic _ => "Exception"

/-- Python `str(e)` for the modelled exceptions. -/
def excMessage : Exc → String
  | .node .missing d => "Dependency " ++ d ++ ": result missed"
  | .node .failed d => "Dependency " ++ d ++ ": failed"
  | .node .skipped d => "Dependency " ++ d ++ ": skipped"
  | .node .conditionFailed d => "Dependency " ++ d ++ " condition: result is false"
  | .recoverableAgent m => m
  | .actionParsing m => m
  | .maxLoopsReached m => m
  | .timeoutErr => "timeout"
  | .attributeError => "object has no attribute"
  | .generic m => m

/-- The dependency id carried by a `NodeException` (its `failed_depend`). -/
def excDepId : Exc → String
  | .node _ d => d
  | _ => ""

/-- Ordered association-list lookup, modelling Python `dict.get`. -/
def alookup {α : Type} : List (String × α) → String → Option α
  | [], _ => none
  | (k, v) :: rest, key => if k = key then some v else alookup rest key

/-- Python `dict.__or__` (`a | b`): keys of `a` first (with `b`'s values for
common keys), then the keys only in `b`, in order. -/
def dictUnion (a b : List (String × Value)) : List (String × Value) :=
  (a.map (fun p => (p.1, ((alookup b p.1).getD p.2)))) ++
    b.filter (fun q => (alookup a q.1).isNone)

/-- Field access on a dict-valued `Value`. -/
def vLookup : Value → String → Option Value
  | .dict entries, k => alookup entries k
  | _, _ => none

/-- `dynamiq.nodes.node.ErrorHandling`: retry/timeout policy of one node.
Python floats are modelled by exact rationals. -/
structure ErrorHandling where
  timeout_seconds : Option Rat := none
  retry_interval_seconds : Rat := 1
  max_retries : Nat := 0
  backoff_rate : Rat := 1

/-- `dynamiq.nodes.node.InputTransformer` / `OutputTransformer`: a declarative
jsonpath selection (`path`) and field mapping (`selector`). -/
structure InputTransformer where
  path : Option String := none
  selector : Option (List (String × String)) := none

/-- `dynamiq.nodes.node.CachingConfig`. -/
structure CachingConfig where
  enabled : Bool := false

/-- `dynamiq.nodes.node.NodeDependency`: a directed edge to a predecessor
node (only its id is consulted by validation) with an optional gate name
(`option`). -/
structure NodeDependency where
  nodeId : String
  option : Option String := none

/-- Lifecycle events emitted to the callback observers of `RunnableConfig`.
Observers are passive recorders (spec §5: "an observer may therefore veto
nothing"), so emission is modelled as appending to an event trace.  The
`attempt` index on the execute events models the fresh `execution_run_id`
merged into the kwargs of each retry attempt. -/
inductive Event where
  | nodeStart (input : Value)
  | nodeEnd (output : Value)
  | nodeError (e : Exc)
  | nodeSkip (depId : String)
  | executeStart (attempt : Nat)
  | executeEnd (attempt : Nat)
  | executeError (attempt : Nat) (e : Exc)
  | sleep (seconds : Rat)

/-- `dynamiq.nodes.node.Node`, restricted to the attributes its `run`
pipeline consults.  The abstract `execute` hook is a function field; its
extra `Nat` argument is the global attempt counter, an explicit oracle index
standing for the hidden state an impure Python `execute` may read (a pure
model would force every retry attempt to behave identically).  `times_out`
is the oracle for `execute_with_timeout`: attempt `a` exceeding the
wall-clock bound is modelled as `times_out a = true`, which raises
`TimeoutError` exactly as expiry of `future.result(timeout=...)` does. -/
structure Node where
  id : String
  error_handling : ErrorHandling := {}
  input_transformer : InputTransformer := {}
  output_transformer : InputTransformer := {}
  caching : CachingConfig := {}
  depends : List NodeDependency := []
  execute : Nat → Value → Except Exc Value
  times_out : Nat → Bool := fun _ => false

/-- Modelled from the spec: the collaborators `Node.run` consumes whose code
is not in src/ — the jsonpath filter/mapper of `dynamiq.utils.jsonpath`
(spec §4.1 step 3: declarative path selection then field mapping, either of
which may fail the node) and the cache backend of `dynamiq.cache.utils`
(spec §4.3: a get capability keyed by node identity plus effective input,
enabled only when both the node's caching config and the run-level cache
config permit). -/
structure Env where
  jsonpath_filter : Value → Option String → Except Exc Value
  jsonpath_mapper : Value → Option (List (String × String)) → Except Exc Value
  cache_get : String → Value → Option Value
  run_cache_enabled : Bool := false

/-- `Node.transform`: jsonpath filter then mapper (`node.py` line 280). -/
def transform (env : Env) (data : Value) (t : InputTransformer) : Except Exc Value := do
  let filtered ← env.jsonpath_filter data t.path
  env.jsonpath_mapper filtered t.selector

/-- `Node._validate_dependency_status` (`node.py` line 196): a missing
dependency result raises `NodeException`, a FAILURE result raises
`NodeFailedException`, a SKIP result raises `NodeSkippedException`. -/
def validate_dependency_status (dep : NodeDependency)
    (depends_result : List (String × RunnableResult)) : Except Exc Unit :=
  match alookup depends_result dep.nodeId with
  | none => .error (Exc.node .missing dep.nodeId)
  | some r =>
    if r.status = .FAILURE then .error (Exc.node .failed dep.nodeId)
    else if r.status = .SKIP then .error (Exc.node .skipped dep.nodeId)
    else .ok ()

/-- `Node._validate_dependency_condition` (`node.py` line 227): when the
predecessor's result exists and its output is a dict, look up the gate field;
if that field is truthy, read its `.status` attribute (an `AttributeError`
on non-result values) and raise `NodeConditionFailedException` when it is
FAILURE.  Every other shape passes silently. -/
def validate_dependency_condition (dep : NodeDependency)
    (depends_result : List (String × RunnableResult)) : Except Exc Unit :=
  match alookup depends_result dep.nodeId with
  | none => .ok ()
  | some r =>
    match r.output with
    | .dict entries =>
      match alookup entries (dep.option.getD "") with
      | none => .ok ()
      | some v =>
        if isTruthy v then
          match vStatus v with
          | some .FAILURE => .error (Exc.node .conditionFailed dep.nodeId)
          | some _ => .ok ()
          | none => .error Exc.attributeError
        else .ok ()
    | _ => .ok ()

/-- One iteration of `Node.validate_depends`: status check, then the gate
condition check when `dep.option` is truthy (a set, non-empty string). -/
def validateDep (dep : NodeDependency)
    (depends_result : List (String × RunnableResult)) : Except Exc Unit :=
  match validate_dependency_status dep depends_result with
  | .error e => .error e
  | .ok _ =>
    match dep.option with
    | some o =>
      if o = "" then .ok () else validate_dependency_condition dep depends_result
    | none => .ok ()

/-- The loop body of `Node.validate_depends` over the dependency list. -/
def validateList (depends_result : List (String × RunnableResult)) :
    List NodeDependency → Except Exc Unit
  | [] => .ok ()
  | d :: ds =>
    match validateDep d depends_result with
    | .error e => .error e
    | .ok _ => validateList depends_result ds

/-- `Node.validate_depends` (`node.py` line 251). -/
def validate_depends (node : Node)
    (depends_result : List (String × RunnableResult)) : Except Exc Unit :=
  validateList depends_result node.depends

/-- Modelled from the spec: `RunnableResult.to_tracing_depend_dict`
(`dynamiq/runnables`, not in src/) — the tracing view of a dependency result
merged into the input (spec §4.1 step 1). -/
def to_tracing_depend_dict (r : RunnableResult) : Value :=
  Value.dict [("status", Value.str (match r.status with
      | .SUCCESS => "success" | .FAILURE => "failure" | .SKIP => "skip")),
    ("output", r.output)]

/-- Modelled from the spec: `RunnableResult.to_depend_dict`
(`dynamiq/runnables`, not in src/) — the dependency view handed to the input
transformer when one is configured. -/
def to_depend_dict (r : RunnableResult) : Value :=
  Value.dict [("output", r.output)]

/-- The merged input of `Node.run` line 375:
`input_data | {k: result.to_tracing_depend_dict() for k, result in depends_result.items()}`. -/
def mergedTracingInput (input_data : List (String × Value))
    (depends_result : List (String × RunnableResult)) : Value :=
  Value.dict (dictUnion input_data
    (depends_result.map (fun p => (p.1, to_tracing_depend_dict p.2))))

/-- Step 3 of the `Node.run` pipeline (`node.py` lines 395-398): when an
input transformer is configured, re-merge the raw input with the
`to_depend_dict` view and transform it; otherwise keep the tracing-merged
input computed at line 375. -/
def effectiveInput (env : Env) (node : Node) (input_data : List (String × Value))
    (depends_result : List (String × RunnableResult)) : Except Exc Value :=
  if node.input_transformer.path.isSome || node.input_transformer.selector.isSome then
    transform env
      (Value.dict (dictUnion input_data
        (depends_result.map (fun p => (p.1, to_depend_dict p.2)))))
      node.input_transformer
  else
    .ok (mergedTracingInput input_data depends_result)

/-- One attempt of `Node.execute_with_timeout` (`node.py` line 498): the
attempt either exceeds its wall-clock bound (`times_out`, raising
`TimeoutError`) or yields whatever `execute` yields. -/
def attemptExec (node : Node) (attempt : Nat) (input : Value) : Except Exc Value :=
  if node.times_out attempt then .error Exc.timeoutErr else node.execute attempt input

/-- The retry loop of `Node.execute_with_retry` (`node.py` lines 458-496),
recursing on the number of remaining attempts.  Per attempt: emit
execute-start; on success emit execute-end and return; on error emit
execute-error, and unless this was the last attempt sleep
`retry_interval_seconds * backoff_rate ^ attempt` and retry; after the last
failed attempt re-raise its error.  The `remaining = 0` base case is
unreachable from `execute_with_retry` since `max_retries + 1 ≥ 1`. -/
def retryAux (node : Node) (input : Value) : Nat → Nat → Except Exc Value × List Event
  | _, 0 => (.error (Exc.generic "no attempts"), [])
  | attempt, remaining + 1 =>
    match attemptExec node attempt input with
    | .ok out => (.ok out, [Event.executeStart attempt, Event.executeEnd attempt])
    | .error e =>
      match remaining with
      | 0 => (.error e, [Event.executeStart attempt, Event.executeError attempt e])
      | r + 1 =>
        let d := node.error_handling.retry_interval_seconds *
          node.error_handling.backoff_rate ^ attempt
        let rest := retryAux node input (attempt + 1) (r + 1)
        (rest.1,
          Event.executeStart attempt :: Event.executeError attempt e :: Event.sleep d :: rest.2)

/-- `Node.execute_with_retry` (`node.py` line 437): `max_retries + 1`
attempts starting at attempt 0. -/
def execute_with_retry (node : Node) (input : Value) : Except Exc Value × List Event :=
  retryAux node input 0 (node.error_handling.max_retries + 1)

/-- Modelled from the spec: `format_value` (`dynamiq/utils`, not in src/) —
a FAILURE (or SKIP) payload always carries a human-readable message and,
where applicable (`Node.run` passes it only on the failure path), a
recoverable flag (spec §7). -/
def format_value (e : Exc) (recoverable : Option Bool) : Value :=
  Value.dict
    ([("content", Value.str (excTypeName e ++ ": " ++ excMessage e))] ++
      (match recoverable with
       | some b => [("recoverable", Value.bool b)]
       | none => []))

/-- The cache gate of `Node.run` (`node.py` lines 401-408): when caching is
enabled on both the node and the run config and the backend holds a value for
this node identity and effective input, short-circuit execution (no
execute events are emitted); otherwise run `execute_with_retry`. -/
def cacheOrExecute (env : Env) (node : Node) (ti : Value) :
    Except Exc Value × List Event :=
  match (if node.caching.enabled && env.run_cache_enabled
         then env.cache_get node.id ti else none) with
  | some out => (.ok out, [])
  | none => execute_with_retry node ti

/-- The body of the second `try` block of `Node.run` (`node.py` lines
394-422): effective input, node-start callback, cache gate, retried
execution, output transform, node-end callback.  Returns the outcome
(`(transformed_input, transformed_output)` on success, the raised exception
otherwise) together with the events emitted before control left the block. -/
def runBody (env : Env) (node : Node) (input_data : List (String × Value))
    (depends_result : List (String × RunnableResult)) :
    Except Exc (Value × Value) × List Event :=
  match effectiveInput env node input_data depends_result with
  | .error e => (.error e, [])
  | .ok ti =>
    match cacheOrExecute env node ti with
    | (.error e, evs) => (.error e, Event.nodeStart ti :: evs)
    | (.ok out, evs) =>
      match transform env out node.output_transformer with
      | .error e => (.error e, Event.nodeStart ti :: evs)
      | .ok tout => (.ok (ti, tout), Event.nodeStart ti :: (evs ++ [Event.nodeEnd tout]))

/-- `Node.run` (`node.py` line 344).  The first `try` catches only the
`NodeException` family and converts it into a SKIP result after the skip
callback; any other exception raised by dependency validation (such as the
`AttributeError` of a gate field without a `.status` attribute) escapes the
entry point, which the outer `Except` layer records.  The second `try`
catches every `Exception` from the pipeline body and reifies it into a
FAILURE result carrying `format_value(e, recoverable=...)`, where the flag
is `isinstance(e, RecoverableAgentException)`. -/
def run (env : Env) (node : Node) (input_data : List (String × Value))
    (depends_result : List (String × RunnableResult)) :
    Except Exc (RunnableResult × List Event) :=
  let transformed_input := mergedTracingInput input_data depends_result
  match validate_depends node depends_result with
  | .error (Exc.node k depId) =>
    .ok ({ status := .SKIP, input := transformed_input,
           output := format_value (Exc.node k depId) none },
         [Event.nodeSkip depId])
  | .error e => .error e
  | .ok _ =>
    match runBody env node input_data depends_result with
    | (.ok (ti, tout), evs) =>
      .ok ({ status := .SUCCESS, input := ti, output := tout }, evs)
    | (.error e, evs) =>
      .ok ({ status := .FAILURE, input := Value.dict input_data,
             output := format_value e (some (isRecoverableAgent e)) },
           evs ++ [Event.nodeError e])

/-! ## Retry policy: attempt counting, backoff and error propagation -/

/-- Helper for the retry theorem: the retry loop over the attempts
`base, base+1, ..., last` (with `last = base + r`) when every attempt
fails. -/
theorem retryAux_all_fail (node : Node) (input : Value) (errs : Nat → Exc)
    (hfail : ∀ a, attemptExec node a input = .error (errs a)) :
    ∀ r base last, base + r = last →
      retryAux node input base (r + 1) =
      (.error (errs last),
        (List.range' base (r + 1)).flatMap (fun a =>
          [Event.executeStart a, Event.executeError a (errs a)] ++
            (if a < last then
              [Event.sleep (node.error_handling.retry_interval_seconds *
                node.error_handling.backoff_rate ^ a)]
             else []))) := by
  intro r
  induction r with
  | zero =>
    intro base last hlast
    have hl : last = base := by omega
    subst hl
    simp [retryAux, hfail, List.range']
  | succ r ih =>
    intro base last hlast
    have hrec := ih (base + 1) last (by omega)
    have hb : base < last := by omega
    show retryAux node input base (r + 1 + 1) = _
    rw [List.range'_succ]
    simp only [retryAux, hfail base, hrec, List.flatMap_cons, List.append_assoc, if_pos hb]
    rfl

/-- C2: for every node with `error_handling.max_retries = N` whose execute
raises on every attempt, `execute_with_retry` makes exactly `N + 1` attempts
(execute-start events for attempts `0 … N`), sleeps
`retry_interval_seconds * backoff_rate ^ attempt` after each failed attempt
`0 … N-1`, does not sleep after the final attempt, and re-raises the error of
the last attempt. -/
theorem execute_with_retry_exhausts_attempts (node : Node) (input : Value) (errs : Nat → Exc)
    (hfail : ∀ a, attemptExec node a input = .error (errs a)) :
    execute_with_retry node input =
      (.error (errs node.error_handling.max_retries),
        (List.range (node.error_handling.max_retries + 1)).flatMap (fun a =>
          [Event.executeStart a, Event.executeError a (errs a)] ++
            (if a < node.error_handling.max_retries then
              [Event.sleep (node.error_handling.retry_interval_seconds *
                node.error_handling.backoff_rate ^ a)]
             else []))) := by
  have h := retryAux_all_fail node input errs hfail node.error_handling.max_retries 0
    node.error_handling.max_retries (by omega)
  rw [execute_with_retry, List.range_eq_range']
  exact h

/-- A concrete node whose execute always raises, for the retry witness. -/
def retryNode : Node where
  id := "retry-demo"
  error_handling := { retry_interval_seconds := 2, max_retries := 2, backoff_rate := 3 }
  execute := fun _ _ => .error (Exc.generic "boom")

/-- Witness for C2 at `max_retries = 2`: three attempts, sleeps of `2 * 3^0`
and `2 * 3^1` seconds after the first two failures, none after the third, and
the last error re-raised. -/
theorem execute_with_retry_exhausts_attempts_witness :
    execute_with_retry retryNode (Value.dict []) =
      (.error (Exc.generic "boom"),
        [Event.executeStart 0, Event.executeError 0 (Exc.generic "boom"), Event.sleep 2,
         Event.executeStart 1, Event.executeError 1 (Exc.generic "boom"), Event.sleep 6,
         Event.executeStart 2, Event.executeError 2 (Exc.generic "boom")]) := by
  have h := execute_with_retry_exhausts_attempts retryNode (Value.dict [])
    (fun _ => Exc.generic "boom") (fun _ => rfl)
  rw [h]
  norm_num [List.range_succ, retryNode]

/-! ## The outer boundary of `Node.run` -/

/-- When dependency validation raises a `NodeException`-family error,
`Node.run` emits the skip callback and returns a SKIP result whose output is
the formatted exception. -/
theorem run_skip_of_validate_node_error (env : Env) (node : Node)
    (input_data : List (String × Value)) (depends_result : List (String × RunnableResult))
    (k : NodeExcKind) (depId : String)
    (hval : validate_depends node depends_result = .error (Exc.node k depId)) :
    run env node input_data depends_result =
      .ok ({ status := .SKIP, input := mergedTracingInput input_data depends_result,
             output := format_value (Exc.node k depId) none },
           [Event.nodeSkip depId]) := by
  simp only [run, hval]

/-- When dependency validation passes, `Node.run` either succeeds with the
effective input and transformed output, or reifies the body's exception into
a FAILURE result; it never raises and never returns SKIP. -/
theorem run_cases (env : Env) (node : Node) (input_data : List (String × Value))
    (depends_result : List (String × RunnableResult))
    (hval : validate_depends node depends_result = .ok ()) :
    (∃ ti tout evs,
      effectiveInput env node input_data depends_result = .ok ti ∧
      runBody env node input_data depends_result = (.ok (ti, tout), evs) ∧
      run env node input_data depends_result =
        .ok ({ status := .SUCCESS, input := ti, output := tout }, evs)) ∨
    (∃ e evs,
      runBody env node input_data depends_result = (.error e, evs) ∧
      run env node input_data depends_result =
        .ok ({ status := .FAILURE, input := Value.dict input_data,
               output := format_value e (some (isRecoverableAgent e)) },
             evs ++ [Event.nodeError e])) := by
  cases heff : effectiveInput env node input_data depends_result with
  | error e =>
    right
    have hb : runBody env node input_data depends_result = (.error e, []) := by
      simp only [runBody, heff]
    exact ⟨e, [], hb, by simp only [run, hval, hb]⟩
  | ok ti =>
    cases hco : cacheOrExecute env node ti with
    | mk er evs2 =>
      cases er with
      | error e =>
        right
        have hb : runBody env node input_data depends_result =
            (.error e, Event.nodeStart ti :: evs2) := by
          simp only [runBody, heff, hco]
        exact ⟨e, Event.nodeStart ti :: evs2, hb, by simp only [run, hval, hb]⟩
      | ok out =>
        cases htr : transform env out node.output_transformer with
        | error e =>
          right
          have hb : runBody env node input_data depends_result =
              (.error e, Event.nodeStart ti :: evs2) := by
            simp only [runBody, heff, hco, htr]
          exact ⟨e, Event.nodeStart ti :: evs2, hb, by simp only [run, hval, hb]⟩
        | ok tout =>
          left
          have hb : runBody env node input_data depends_result =
              (.ok (ti, tout), Event.nodeStart ti :: (evs2 ++ [Event.nodeEnd tout])) := by
            simp only [runBody, heff, hco, htr]
          exact ⟨ti, tout, Event.nodeStart ti :: (evs2 ++ [Event.nodeEnd tout]), rfl, hb,
            by simp only [run, hval, hb]⟩

/-- When dependency validation passes, `Node.run` never raises and its result
is never SKIP. -/
theorem run_ok_not_skip (env : Env) (node : Node) (input_data : List (String × Value))
    (depends_result : List (String × RunnableResult))
    (hval : validate_depends node depends_result = .ok ()) :
    ∃ res evs, run env node input_data depends_result = .ok (res, evs) ∧
      (res.status = .SUCCESS ∨ res.status = .FAILURE) := by
  rcases run_cases env node input_data depends_result hval with
    ⟨ti, tout, evs, _, _, hr⟩ | ⟨e, evs, _, hr⟩
  · exact ⟨_, _, hr, Or.inl rfl⟩
  · exact ⟨_, _, hr, Or.inr rfl⟩

/-- C1: for every input, configuration (environment) and dependency-result
map, and for any exception `e` raised during the pipeline body (input
transformation, caching, retried execution, output transformation — all the
stages of `runBody`, with callback observers passive per spec §5), `Node.run`
returns (rather than raises) a FAILURE `RunnableResult` whose output is the
formatted error, whose `recoverable` field is the Boolean
`isinstance(e, RecoverableAgentException)` — true exactly for the
`RecoverableAgentException` family. -/
theorem run_reifies_execution_errors (env : Env) (node : Node)
    (input_data : List (String × Value)) (depends_result : List (String × RunnableResult))
    (hval : validate_depends node depends_result = .ok ())
    (e : Exc) (evs : List Event)
    (hbody : runBody env node input_data depends_result = (.error e, evs)) :
    run env node input_data depends_result =
      .ok ({ status := .FAILURE, input := Value.dict input_data,
             output := format_value e (some (isRecoverableAgent e)) },
           evs ++ [Event.nodeError e]) ∧
    vLookup (format_value e (some (isRecoverableAgent e))) "recoverable" =
      some (Value.bool (isRecoverableAgent e)) := by
  constructor
  · simp only [run, hval, hbody]
  · rfl

/-- An environment with identity jsonpath transforms and an empty cache, for
the concrete witnesses. -/
def plainEnv : Env where
  jsonpath_filter := fun v _ => .ok v
  jsonpath_mapper := fun v _ => .ok v
  cache_get := fun _ _ => none

/-- A node whose execute always raises a plain (non-recoverable)
exception. -/
def boomNode : Node where
  id := "boom"
  execute := fun _ _ => .error (Exc.generic "exploded")

/-- Witness for C1: a node whose execute raises a plain exception yields a
FAILURE result with `recoverable = false`, and the error does not escape. -/
theorem run_reifies_execution_errors_witness :
    run plainEnv boomNode [] [] =
      .ok ({ status := .FAILURE, input := Value.dict [],
             output := format_value (Exc.generic "exploded") (some false) },
           [Event.nodeStart (Value.dict []), Event.executeStart 0,
            Event.executeError 0 (Exc.generic "exploded"),
            Event.nodeError (Exc.generic "exploded")]) ∧
    vLookup (format_value (Exc.generic "exploded") (some false)) "recoverable" =
      some (Value.bool false) :=
  run_reifies_execution_errors plainEnv boomNode [] [] rfl (Exc.generic "exploded")
    [Event.nodeStart (Value.dict []), Event.executeStart 0,
     Event.executeError 0 (Exc.generic "exploded")] rfl

/-- C10: when dependency validation passes, a FAILURE result's `input` field
is the original, unmerged and untransformed `input_data` exactly as passed by
the caller, whereas a SUCCESS result's `input` field is the effective input —
the dependency-merged view, further transformed when an input transformer is
configured, and equal to the tracing-merged input when none is. -/
theorem failure_input_unmerged (env : Env) (node : Node)
    (input_data : List (String × Value)) (depends_result : List (String × RunnableResult))
    (hval : validate_depends node depends_result = .ok ()) :
    ∀ res evs, run env node input_data depends_result = .ok (res, evs) →
      (res.status = .FAILURE → res.input = Value.dict input_data) ∧
      (res.status = .SUCCESS →
        effectiveInput env node input_data depends_result = .ok res.input ∧
        (node.input_transformer.path = none → node.input_transformer.selector = none →
          res.input = mergedTracingInput input_data depends_result)) := by
  intro res evs hrun
  rcases run_cases env node input_data depends_result hval with
    ⟨ti, tout, evs', heff, _, hr⟩ | ⟨e, evs', _, hr⟩
  · rw [hr] at hrun
    injection hrun with hp
    injection hp with h1 h2
    subst h1
    refine ⟨fun h => RunnableStatus.noConfusion h, fun _ => ⟨heff, fun hpath hsel => ?_⟩⟩
    simp only [effectiveInput, hpath, hsel, Option.isSome_none, Bool.or_self,
      Bool.false_eq_true, if_false] at heff
    injection heff with h
    exact h.symm
  · rw [hr] at hrun
    injection hrun with hp
    injection hp with h1 h2
    subst h1
    exact ⟨fun _ => rfl, fun h => RunnableStatus.noConfusion h⟩

/-- A node with one dependency and a trivial execute, for the C10 witness. -/
def echoNode : Node where
  id := "echo"
  depends := [{ nodeId := "A" }]
  execute := fun _ v => .ok v

/-- A successful dependency result for the witnesses. -/
def depOkA : RunnableResult where
  status := .SUCCESS
  input := Value.vnone
  output := Value.str "hi"

/-- Witness for C10 on the SUCCESS side: with a dependency present and no
input transformer, the result's input is the dependency-merged tracing view,
not the raw caller input. -/
theorem failure_input_unmerged_witness :
    (run plainEnv echoNode [("q", Value.str "asked")] [("A", depOkA)] =
      .ok ({ status := .SUCCESS,
             input := Value.dict [("q", Value.str "asked"),
               ("A", Value.dict [("status", Value.str "success"),
                 ("output", Value.str "hi")])],
             output := Value.dict [("q", Value.str "asked"),
               ("A", Value.dict [("status", Value.str "success"),
                 ("output", Value.str "hi")])] },
           [Event.nodeStart (Value.dict [("q", Value.str "asked"),
               ("A", Value.dict [("status", Value.str "success"),
                 ("output", Value.str "hi")])]),
            Event.executeStart 0, Event.executeEnd 0,
            Event.nodeEnd (Value.dict [("q", Value.str "asked"),
               ("A", Value.dict [("status", Value.str "success"),
                 ("output", Value.str "hi")])])])) ∧
    Value.dict [("q", Value.str "asked"),
        ("A", Value.dict [("status", Value.str "success"),
          ("output", Value.str "hi")])] =
      mergedTracingInput [("q", Value.str "asked")] [("A", depOkA)] := by
  have h := failure_input_unmerged plainEnv echoNode [("q", Value.str "asked")]
    [("A", depOkA)] rfl
  have hrun : run plainEnv echoNode [("q", Value.str "asked")] [("A", depOkA)] =
      .ok ({ status := .SUCCESS,
             input := Value.dict [("q", Value.str "asked"),
               ("A", Value.dict [("status", Value.str "success"),
                 ("output", Value.str "hi")])],
             output := Value.dict [("q", Value.str "asked"),
               ("A", Value.dict [("status", Value.str "success"),
                 ("output", Value.str "hi")])] },
           [Event.nodeStart (Value.dict [("q", Value.str "asked"),
               ("A", Value.dict [("status", Value.str "success"),
                 ("output", Value.str "hi")])]),
            Event.executeStart 0, Event.executeEnd 0,
            Event.nodeEnd (Value.dict [("q", Value.str "asked"),
               ("A", Value.dict [("status", Value.str "success"),
                 ("output", Value.str "hi")])])]) := rfl
  refine ⟨hrun, ?_⟩
  have h2 := ((h _ _ hrun).2 rfl).2 rfl rfl
  exact h2

/-! ## Dependency validation: skip semantics and the gate condition -/

/-- The dependency `d` has a FAILURE or SKIP result in the map. -/
def depFailedOrSkipped (depends_result : List (String × RunnableResult))
    (d : NodeDependency) : Prop :=
  ∃ r, alookup depends_result d.nodeId = some r ∧
    (r.status = .FAILURE ∨ r.status = .SKIP)

/-- The gate-condition check on `d` does not raise `AttributeError` (i.e. the
gate field, when present and truthy in a mapping output, is a result-bearing
value). -/
def condBenign (depends_result : List (String × RunnableResult))
    (d : NodeDependency) : Prop :=
  validate_dependency_condition d depends_result ≠ .error Exc.attributeError

/-- The only errors the gate-condition check can raise are `AttributeError`
and `NodeConditionFailedException`. -/
theorem validate_dependency_condition_err (dep : NodeDependency)
    (depends_result : List (String × RunnableResult)) (e : Exc)
    (h : validate_dependency_condition dep depends_result = .error e) :
    e = Exc.attributeError ∨ e = Exc.node .conditionFailed dep.nodeId := by
  unfold validate_dependency_condition at h
  cases hl : alookup depends_result dep.nodeId with
  | none => simp only [hl] at h; exact Except.noConfusion h
  | some r =>
    simp only [hl] at h
    cases ho : r.output with
    | dict entries =>
      simp only [ho] at h
      cases hl2 : alookup entries (dep.option.getD "") with
      | none => simp only [hl2] at h; exact Except.noConfusion h
      | some v =>
        simp only [hl2] at h
        by_cases ht : isTruthy v = true
        · rw [if_pos ht] at h
          cases hv : vStatus v with
          | none =>
            simp only [hv] at h
            injection h with he
            exact Or.inl he.symm
          | some s =>
            cases s with
            | FAILURE =>
              simp only [hv] at h
              injection h with he
              exact Or.inr he.symm
            | SUCCESS => simp only [hv] at h; exact Except.noConfusion h
            | SKIP => simp only [hv] at h; exact Except.noConfusion h
        · rw [if_neg ht] at h
          exact Except.noConfusion h
    | vnone => simp only [ho] at h; exact Except.noConfusion h
    | bool b => simp only [ho] at h; exact Except.noConfusion h
    | str s => simp only [ho] at h; exact Except.noConfusion h
    | int n => simp only [ho] at h; exact Except.noConfusion h
    | list items => simp only [ho] at h; exact Except.noConfusion h
    | res st i o => simp only [ho] at h; exact Except.noConfusion h

/-- The status check errors exactly on missing, FAILURE and SKIP dependency
results, always with a `NodeException`-family error naming the dependency. -/
theorem validate_dependency_status_err (dep : NodeDependency)
    (depends_result : List (String × RunnableResult)) (e : Exc)
    (h : validate_dependency_status dep depends_result = .error e) :
    ∃ k, e = Exc.node k dep.nodeId := by
  unfold validate_dependency_status at h
  cases hl : alookup depends_result dep.nodeId with
  | none =>
    simp only [hl] at h
    injection h with he
    exact ⟨.missing, he.symm⟩
  | some r =>
    simp only [hl] at h
    by_cases hf : r.status = .FAILURE
    · rw [if_pos hf] at h
      injection h with he
      exact ⟨.failed, he.symm⟩
    · rw [if_neg hf] at h
      by_cases hs : r.status = .SKIP
      · rw [if_pos hs] at h
        injection h with he
        exact ⟨.skipped, he.symm⟩
      · rw [if_neg hs] at h
        exact Except.noConfusion h

/-- A benign failing `validateDep` always fails with a `NodeException`-family
error naming the dependency. -/
theorem validateDep_err (dep : NodeDependency)
    (depends_result : List (String × RunnableResult)) (e : Exc)
    (h : validateDep dep depends_result = .error e)
    (hbenign : condBenign depends_result dep) :
    ∃ k, e = Exc.node k dep.nodeId := by
  unfold validateDep at h
  cases hs : validate_dependency_status dep depends_result with
  | error e' =>
    simp only [hs] at h
    injection h with he
    obtain ⟨k, hk⟩ := validate_dependency_status_err dep depends_result e' hs
    exact ⟨k, by rw [← he, hk]⟩
  | ok u =>
    simp only [hs] at h
    cases ho : dep.option with
    | none => simp only [ho] at h; exact Except.noConfusion h
    | some o =>
      simp only [ho] at h
      by_cases hoe : o = ""
      · rw [if_pos hoe] at h
        exact Except.noConfusion h
      · rw [if_neg hoe] at h
        rcases validate_dependency_condition_err dep depends_result e h with he | he
        · rw [he] at h
          exact absurd h hbenign
        · exact ⟨.conditionFailed, he⟩

/-- If a dependency has a FAILURE or SKIP result, its status check errors. -/
theorem status_err_of_bad (dep : NodeDependency)
    (depends_result : List (String × RunnableResult))
    (hbad : depFailedOrSkipped depends_result dep) :
    ∃ k, validate_dependency_status dep depends_result = .error (Exc.node k dep.nodeId) := by
  obtain ⟨r, hr, hst⟩ := hbad
  rcases hst with h | h
  · exact ⟨.failed, by unfold validate_dependency_status; simp [hr, h]⟩
  · exact ⟨.skipped, by unfold validate_dependency_status; simp [hr, h]⟩

/-- If some dependency in the list has a FAILURE or SKIP result and every
gate-condition check is benign, the validation loop errors with a
`NodeException`-family error. -/
theorem validateList_err_of_bad (depends_result : List (String × RunnableResult)) :
    ∀ deps : List NodeDependency,
      (∀ d ∈ deps, condBenign depends_result d) →
      (∃ d ∈ deps, depFailedOrSkipped depends_result d) →
      ∃ k depId, validateList depends_result deps = .error (Exc.node k depId) := by
  intro deps
  induction deps with
  | nil =>
    intro _ hbad
    simp at hbad
  | cons d ds ih =>
    intro hben hbad
    cases hd : validateDep d depends_result with
    | error e =>
      obtain ⟨k, hk⟩ := validateDep_err d depends_result e hd (hben d (by simp))
      refine ⟨k, d.nodeId, ?_⟩
      simp only [validateList, hd, hk]
    | ok u =>
      have hdgood : ¬ depFailedOrSkipped depends_result d := by
        intro hb
        obtain ⟨k, hk⟩ := status_err_of_bad d depends_result hb
        rw [validateDep, hk] at hd
        exact Except.noConfusion hd
      obtain ⟨d', hd', hbad'⟩ := hbad
      rcases List.mem_cons.mp hd' with h | h
      · exact absurd hbad' (h ▸ hdgood)
      · obtain ⟨k, depId, hk⟩ := ih (fun x hx => hben x (List.mem_cons_of_mem d hx)) ⟨d', h, hbad'⟩
        refine ⟨k, depId, ?_⟩
        simp only [validateList, hd, hk]

/-- C3 (amended): for every node and every dependency-result map in which
some declared dependency's result has status FAILURE or SKIP, provided the
gate-condition check on each dependency is benign (the gate field, when
present and truthy in a mapping output, carries a `.status` attribute),
`Node.run` returns a SKIP result (never FAILURE or SUCCESS) whose output is
the formatted `NodeException` describing the first dependency that failed
validation, emitting the skip callback rather than raising. -/
theorem run_skip_on_failed_dependency (env : Env) (node : Node)
    (input_data : List (String × Value)) (depends_result : List (String × RunnableResult))
    (hbad : ∃ d ∈ node.depends, depFailedOrSkipped depends_result d)
    (hbenign : ∀ d ∈ node.depends, condBenign depends_result d) :
    ∃ k depId,
      run env node input_data depends_result =
        .ok ({ status := .SKIP, input := mergedTracingInput input_data depends_result,
               output := format_value (Exc.node k depId) none },
             [Event.nodeSkip depId]) := by
  obtain ⟨k, depId, hv⟩ :=
    validateList_err_of_bad depends_result node.depends hbenign hbad
  exact ⟨k, depId,
    run_skip_of_validate_node_error env node input_data depends_result k depId hv⟩

/-- A node with a single ungated dependency, for the C3 witness. -/
def skipDemoNode : Node where
  id := "skip-demo"
  depends := [{ nodeId := "A" }]
  execute := fun _ _ => .ok Value.vnone

/-- A FAILURE dependency result, for the C3 witness. -/
def depFailA : RunnableResult where
  status := .FAILURE
  input := Value.vnone
  output := Value.vnone

/-- Witness for C3: a node whose single dependency failed returns a SKIP
result and emits the skip callback. -/
theorem run_skip_on_failed_dependency_witness :
    ∃ k depId,
      run plainEnv skipDemoNode [] [("A", depFailA)] =
        .ok ({ status := .SKIP, input := mergedTracingInput [] [("A", depFailA)],
               output := format_value (Exc.node k depId) none },
             [Event.nodeSkip depId]) :=
  run_skip_on_failed_dependency plainEnv skipDemoNode [] [("A", depFailA)]
    ⟨{ nodeId := "A" }, List.mem_singleton.mpr rfl, depFailA, rfl, Or.inl rfl⟩
    (fun d hd => by
      rw [List.mem_singleton.mp hd]
      intro hc
      exact Except.noConfusion hc)

/-- The node used by the C3 counterexample: dependency `A` is gated on `"g"`
and precedes dependency `B`. -/
def cexNodeC3 : Node where
  id := "c3"
  depends := [{ nodeId := "A", option := some "g" }, { nodeId := "B" }]
  execute := fun _ _ => .ok Value.vnone

/-- The dependency results of the C3 counterexample: `A` succeeded but its
output maps the gate field to a truthy plain string (no `.status`
attribute), and `B` failed. -/
def cexDrC3 : List (String × RunnableResult) :=
  [("A", { status := .SUCCESS, input := Value.vnone,
           output := Value.dict [("g", Value.str "x")] }),
   ("B", { status := .FAILURE, input := Value.vnone, output := Value.vnone })]

/-- C3 counterexample: a dependency-result map in which a declared dependency
(`B`) has status FAILURE, yet `Node.run` does not return a SKIP result — the
gate check on the earlier dependency `A` reads `.status` off the plain string
stored under its gate field and the resulting `AttributeError` escapes the
public entry point (the first `try` of `Node.run` catches only the
`NodeException` family). -/
theorem dep_failure_skip_counterexample :
    (∃ d ∈ cexNodeC3.depends, depFailedOrSkipped cexDrC3 d) ∧
    run plainEnv cexNodeC3 [] cexDrC3 = .error Exc.attributeError :=
  ⟨⟨{ nodeId := "B" }, List.mem_cons_of_mem _ (List.mem_singleton.mpr rfl),
    { status := .FAILURE, input := Value.vnone, output := Value.vnone }, rfl, Or.inl rfl⟩,
   rfl⟩

/-- The gate on field `g` of result `r` trips: the output is a mapping whose
(truthy) `g` field carries status FAILURE. -/
def gateFails (r : RunnableResult) (g : String) : Prop :=
  ∃ entries v, r.output = Value.dict entries ∧ alookup entries g = some v ∧
    isTruthy v = true ∧ vStatus v = some .FAILURE

/-- Unfolding lemma for `alookup` on a cons cell. -/
theorem alookup_cons {α : Type} (k : String) (v : α) (rest : List (String × α))
    (key : String) :
    alookup ((k, v) :: rest) key = if k = key then some v else alookup rest key := rfl

/-- `alookup` finds the head key. -/
theorem alookup_cons_self {α : Type} (k : String) (v : α) (rest : List (String × α)) :
    alookup ((k, v) :: rest) k = some v := by
  rw [alookup_cons, if_pos rfl]

/-- If the gate-condition check on a single-entry dependency map errors with
`NodeConditionFailedException`, the gate actually trips. -/
theorem gateFails_of_cond_err (pid g : String) (r : RunnableResult)
    (h : validate_dependency_condition { nodeId := pid, option := some g } [(pid, r)] =
      .error (Exc.node .conditionFailed pid)) :
    gateFails r g := by
  unfold validate_dependency_condition at h
  dsimp only at h
  simp only [alookup_cons_self] at h
  cases ho : r.output with
  | dict entries =>
    simp only [ho] at h
    cases hl2 : alookup entries g with
    | none =>
      simp only [Option.getD_some, hl2] at h
      exact Except.noConfusion h
    | some v =>
      simp only [Option.getD_some, hl2] at h
      by_cases ht : isTruthy v = true
      · rw [if_pos ht] at h
        cases hv : vStatus v with
        | none =>
          simp only [hv] at h
          injection h with he
          exact Exc.noConfusion he
        | some s =>
          cases s with
          | FAILURE => exact ⟨entries, v, ho, hl2, ht, hv⟩
          | SUCCESS =>
            simp only [hv] at h
            exact Except.noConfusion h
          | SKIP =>
            simp only [hv] at h
            exact Except.noConfusion h
      · rw [if_neg ht] at h
        exact Except.noConfusion h
  | vnone => simp only [ho] at h; exact Except.noConfusion h
  | bool b => simp only [ho] at h; exact Except.noConfusion h
  | str s => simp only [ho] at h; exact Except.noConfusion h
  | int n => simp only [ho] at h; exact Except.noConfusion h
  | list items => simp only [ho] at h; exact Except.noConfusion h
  | res st i o => simp only [ho] at h; exact Except.noConfusion h

/-- Converse direction: a tripped gate makes the condition check raise
`NodeConditionFailedException`. -/
theorem cond_err_of_gateFails (pid g : String) (r : RunnableResult)
    (hgf : gateFails r g) :
    validate_dependency_condition { nodeId := pid, option := some g } [(pid, r)] =
      .error (Exc.node .conditionFailed pid) := by
  obtain ⟨entries, v, hout, hlook, htr, hst⟩ := hgf
  unfold validate_dependency_condition
  dsimp only
  simp only [alookup_cons_self, hout, Option.getD_some, hlook, htr, if_true, hst]

/-- The status check passes on a SUCCESS single-entry dependency map. -/
theorem status_ok_of_success (pid g : String) (r : RunnableResult)
    (hstatus : r.status = .SUCCESS) :
    validate_dependency_status { nodeId := pid, option := some g } [(pid, r)] = .ok () := by
  unfold validate_dependency_status
  dsimp only
  rw [alookup_cons_self]
  dsimp only
  rw [hstatus]
  rfl

/-- C4 (amended): for a dependency edge whose gate is set (a non-empty field
name) and whose predecessor succeeded, `Node.run`'s result is SKIP exactly
when the predecessor's output is a mapping whose (truthy) gate field carries
status FAILURE; when the field is absent, falsy, of non-FAILURE status, or
the output is not a mapping, validation passes and the node proceeds to
normal execution (the result is SUCCESS or FAILURE, never SKIP).  The
benignness hypothesis excludes the gate field holding a truthy value without
a `.status` attribute, where the check raises `AttributeError` instead. -/
theorem gate_skip_characterization (env : Env) (node : Node)
    (input_data : List (String × Value)) (pid g : String) (r : RunnableResult)
    (hdeps : node.depends = [{ nodeId := pid, option := some g }])
    (hg : g ≠ "")
    (hstatus : r.status = .SUCCESS)
    (hbenign : condBenign [(pid, r)] { nodeId := pid, option := some g }) :
    ∃ res evs, run env node input_data [(pid, r)] = .ok (res, evs) ∧
      (res.status = .SKIP ↔ gateFails r g) := by
  have hvd : validateDep { nodeId := pid, option := some g } [(pid, r)] =
      validate_dependency_condition { nodeId := pid, option := some g } [(pid, r)] := by
    unfold validateDep
    rw [status_ok_of_success pid g r hstatus]
    dsimp only
    rw [if_neg hg]
  cases hcond : validate_dependency_condition { nodeId := pid, option := some g }
      [(pid, r)] with
  | ok u =>
    have hval : validate_depends node [(pid, r)] = .ok () := by
      rw [validate_depends, hdeps]
      simp only [validateList, hvd, hcond]
    obtain ⟨res, evs, hr, hs⟩ := run_ok_not_skip env node input_data [(pid, r)] hval
    refine ⟨res, evs, hr, ?_, ?_⟩
    · intro hskip
      rcases hs with h | h <;> rw [hskip] at h <;> exact RunnableStatus.noConfusion h
    · intro hgf
      rw [cond_err_of_gateFails pid g r hgf] at hcond
      exact Except.noConfusion hcond
  | error e =>
    rcases validate_dependency_condition_err _ _ _ hcond with he | he
    · rw [he] at hcond
      exact absurd hcond hbenign
    · subst he
      have hval : validate_depends node [(pid, r)] =
          .error (Exc.node .conditionFailed pid) := by
        rw [validate_depends, hdeps]
        simp only [validateList, hvd, hcond]
      refine ⟨_, _, run_skip_of_validate_node_error env node input_data [(pid, r)]
        .conditionFailed pid hval, ?_, ?_⟩
      · intro _
        exact gateFails_of_cond_err pid g r hcond
      · intro _
        rfl

/-- A node gated on field `g` of dependency `A`, for C4. -/
def gateNode : Node where
  id := "gate-demo"
  depends := [{ nodeId := "A", option := some "g" }]
  execute := fun _ _ => .ok Value.vnone

/-- A successful predecessor whose mapping output lacks the gate field. -/
def gateAbsentDep : RunnableResult where
  status := .SUCCESS
  input := Value.vnone
  output := Value.dict []

/-- C4 counterexample: the gate `g` is set and the predecessor succeeded, but
its output contains no field keyed `g` — the claim demands a SKIP result, yet
`Node.run` proceeds and returns SUCCESS. -/
theorem gate_absent_field_counterexample :
    gateNode.depends = [{ nodeId := "A", option := some "g" }] ∧
    gateAbsentDep.status = .SUCCESS ∧
    vLookup gateAbsentDep.output "g" = none ∧
    run plainEnv gateNode [] [("A", gateAbsentDep)] =
      .ok ({ status := .SUCCESS,
             input := Value.dict [("A", Value.dict [("status", Value.str "success"),
               ("output", Value.dict [])])],
             output := Value.vnone },
           [Event.nodeStart (Value.dict [("A", Value.dict [("status", Value.str "success"),
               ("output", Value.dict [])])]),
            Event.executeStart 0, Event.executeEnd 0, Event.nodeEnd Value.vnone]) :=
  ⟨rfl, rfl, rfl, rfl⟩

/-- A successful predecessor whose mapping output carries a FAILURE result
under the gate field. -/
def gateFailDep : RunnableResult where
  status := .SUCCESS
  input := Value.vnone
  output := Value.dict [("g", Value.res .FAILURE Value.vnone Value.vnone)]

/-- Witness for C4 (amended): with the gate field present and FAILURE, the
characterization yields a SKIP result. -/
theorem gate_skip_characterization_witness :
    ∃ res evs, run plainEnv gateNode [] [("A", gateFailDep)] = .ok (res, evs) ∧
      (res.status = .SKIP ↔ gateFails gateFailDep "g") :=
  gate_skip_characterization plainEnv gateNode [] "A" "g" gateFailDep rfl
    (by decide) rfl
    (fun hc => Exc.noConfusion (Except.error.inj hc))

/-! ## The ReAct reasoning loop -/

/-- `dynamiq.nodes.types.InferenceMode`: the closed enumeration selecting
the protocol parser, fixed per agent instance. -/
inductive InferenceMode where
  | DEFAULT
  | XML
  | FUNCTION_CALLING
  | STRUCTURED_OUTPUT
deriving DecidableEq, Repr

/-- Whether `pat` is a leading segment of `s` (on character lists). -/
def startsWithL : List Char → List Char → Bool
  | [], _ => true
  | _ :: _, [] => false
  | p :: ps, c :: cs => p == c && startsWithL ps cs

/-- Index of the first occurrence of `pat` (on character lists). -/
def findSubL (pat : List Char) : List Char → Option Nat
  | [] => if pat.isEmpty then some 0 else none
  | c :: rest =>
    if startsWithL pat (c :: rest) then some 0
    else (findSubL pat rest).map (· + 1)

/-- Index of the first occurrence of `pat` in `s` (Python `str.find`). -/
def findSub (pat s : String) : Option Nat :=
  findSubL pat.data s.data

/-- Python `pat in s` on strings. -/
def containsSub (s pat : String) : Bool :=
  (findSub pat s).isSome

/-- Python slicing `s[n:]` by character count. -/
def strDrop (s : String) (n : Nat) : String :=
  ⟨s.data.drop n⟩

/-- Python slicing `s[:n]` by character count. -/
def strTake (s : String) (n : Nat) : String :=
  ⟨s.data.take n⟩

/-- Python `str.strip()` on the ASCII whitespace the engine's strings use
(space, tab, CR, LF), implemented structurally so that it evaluates inside
the kernel: drop leading whitespace, then trailing whitespace via
reversal. -/
def dropWhileWS : List Char → List Char
  | [] => []
  | c :: cs => if c.isWhitespace then dropWhileWS cs else c :: cs

/-- Strip leading and trailing whitespace. -/
def strip (s : String) : String :=
  ⟨(dropWhileWS ((dropWhileWS s.data).reverse)).reverse⟩

/-- `ReActAgent.parse_xml_content` (`react.py` line 251): the regex search
for `<tag>(.*?)</tag>` with DOTALL — the enclosed text of the leftmost
opening tag followed by the nearest closing tag, stripped; `""` when there
is no match.  (If the first opening tag has no later closing tag then no
later opening tag has one either, so first-opening-then-first-closing
realizes the regex's leftmost-match rule; the non-greedy group takes the
nearest closing tag.) -/
def parse_xml_content (text tag : String) : String :=
  let op := "<" ++ tag ++ ">"
  let cl := "</" ++ tag ++ ">"
  match findSub op text with
  | none => ""
  | some i =>
    let rest := strDrop text (i + op.length)
    match findSub cl rest with
    | none => ""
    | some j => strip (strTake rest j)

/-- JSON values, as produced by Python `json.loads`. -/
inductive Json where
  | null
  | b (v : Bool)
  | num (n : Int)
  | s (v : String)
  | arr (items : List Json)
  | obj (fields : List (String × Json))

mutual

/-- A rendering of a JSON value, standing for Python `json.dumps` in the
recorded `llm_generated_output` strings. -/
def jsonDumps : Json → String
  | .null => "null"
  | .b true => "true"
  | .b false => "false"
  | .num n => toString n
  | .s v => "\"" ++ v ++ "\""
  | .arr items => "[" ++ jsonDumpsList items ++ "]"
  | .obj fields => "\x7b" ++ jsonDumpsFields fields ++ "\x7d"

/-- Renders the element list of a JSON array. -/
def jsonDumpsList : List Json → String
  | [] => ""
  | [x] => jsonDumps x
  | x :: y :: xs => jsonDumps x ++ ", " ++ jsonDumpsList (y :: xs)

/-- Renders the field list of a JSON object. -/
def jsonDumpsFields : List (String × Json) → String
  | [] => ""
  | [(k, v)] => "\"" ++ k ++ "\": " ++ jsonDumps v
  | (k, v) :: y :: xs => "\"" ++ k ++ "\": " ++ jsonDumps v ++ ", " ++ jsonDumpsFields (y :: xs)

end

/-- Python `dict[key]` on a JSON object: `none` models the `KeyError` (or a
non-object receiver). -/
def objGet : Json → String → Option Json
  | .obj fields, k => alookup fields k
  | _, _ => none

/-- Python `==` between a JSON-decoded value and a string literal. -/
def jsonEqStr : Json → String → Bool
  | .s v, t => v == t
  | _, _ => false

/-- Python truthiness of a JSON-decoded value. -/
def jsonTruthy : Json → Bool
  | .null => false
  | .b v => v
  | .num n => decide (n ≠ 0)
  | .s v => decide (v ≠ "")
  | .arr items => !items.isEmpty
  | .obj fields => !fields.isEmpty

/-- The `function` member of one entry of `llm_result.output["tool_calls"]`
(spec §6: the model capability's function-calling output shape). -/
structure ToolCallFunction where
  name : String
  arguments : String

/-- The model capability's output: `content` text and, in function-calling
mode, the selected tool calls (spec §6). -/
structure LLMOutput where
  content : String
  tool_calls : List ToolCallFunction := []

/-- The reified result of `self.llm.run(...)` — a `RunnableResult`-shaped
envelope whose output is the model payload; `Node.run` never raises, so the
model call is total (spec §6). -/
structure LLMResult where
  status : RunnableStatus
  output : LLMOutput

/-- `AgentIntermediateStep` (agents/base.py; its shape is apparent from
`react.py`'s `tracing_intermediate`, the tool-observation update at line 437
and `tracing_final`): the prompt, the raw model output, the optional tool
fields of the model observation, and the optional final answer. -/
structure AgentIntermediateStep where
  prompt : String
  initial : String
  tool_using : Option Json := none
  tool_input : Option Json := none
  tool_output : Option String := none
  updated : Option String := none
  final_answer : Option Json := none

/-- The mutable state of one `_run_agent` invocation: the accumulated
context (`previous_responses`), the `_intermediate_steps` dict (an insertion
ordered association list keyed by `loop_num`), and counters of model calls
and tool dispatches made (observational, standing for the external calls). -/
structure AgentState where
  previous_responses : List String
  steps : List (Nat × AgentIntermediateStep)
  llm_calls : Nat
  tool_dispatches : Nat

/-- Python dict assignment `_intermediate_steps[loop_num] = v` (insertion
order preserved, existing key overwritten in place). -/
def setStep (l : List (Nat × AgentIntermediateStep)) (k : Nat)
    (v : AgentIntermediateStep) : List (Nat × AgentIntermediateStep) :=
  match l with
  | [] => [(k, v)]
  | (k', v') :: rest => if k' = k then (k, v) :: rest else (k', v') :: setStep rest k v

/-- In-place update of the record stored at key `k` (the
`model_observation.update(...)` and `["final_answer"] = ...` mutations). -/
def mapStep (l : List (Nat × AgentIntermediateStep)) (k : Nat)
    (f : AgentIntermediateStep → AgentIntermediateStep) :
    List (Nat × AgentIntermediateStep) :=
  l.map (fun p => if p.1 = k then (p.1, f p.2) else p)

/-- Modelled from the spec: the collaborators of the reasoning loop whose
code is not in src/.  `llm i` is the reified (never-raising) result of the
model capability at iteration `i` (spec §6); `json_loads` is Python's
`json.loads`, with `none` modelling `JSONDecodeError`; `generate_prompt` is
`Agent.generate_prompt` applied to the newline-joined context (the tool
descriptions and user request are fixed for the run); `parse_action` is the
base Agent's line-oriented `Thought/Action/Action Input` parser, whose
failures are `ActionParsingException` messages (spec §4.4 step 4);
`run_tool` is `_get_tool` + `_run_tool` — tool resolution and
Execution-Core dispatch — whose recoverable failures the loop absorbs and
whose hard failures (e.g. an unknown tool name) propagate (spec §4.4 step
6). -/
structure AgentEnv where
  llm : Nat → LLMResult
  json_loads : String → Option Json
  generate_prompt : String → String
  parse_action : String → Except String (String × Json)
  run_tool : Json → Json → Except Exc String

/-- `ReActAgent` (`react.py` line 244), restricted to the attributes the
loop reads; `tools` is the truthiness of `self.tools`. -/
structure ReActAgent where
  max_loops : Nat := 15
  inference_mode : InferenceMode := .DEFAULT
  tools : Bool := false

/-- Modelled from the spec: `Agent._extract_final_answer` (agents/base.py,
not in src/) — the text after the literal marker `"Answer:"`, trimmed of
surrounding whitespace. -/
def extract_final_answer (s : String) : String :=
  match findSub "Answer:" s with
  | none => strip s
  | some i => strip (strDrop s (i + 7))

/-- The message of the `ActionParsingException` raised at `react.py` line
265 (two adjacent Python string literals concatenate without a
separator). -/
def xmlParseErrorMsg : String :=
  "Error: Could not parse action and action input." ++
    "Please rewrite in the appropriate XML format with action_input as a valid dictionary."

/-- `ReActAgent.parse_xml_and_extract_info` (`react.py` line 256): extract
the `output` block, its `action` and `action_input` sections, and
JSON-decode the latter; a decode failure raises a recoverable
`ActionParsingException`. -/
def parse_xml_and_extract_info (json_loads : String → Option Json) (text : String) :
    Except Exc (String × Json) :=
  let output_content := parse_xml_content text "output"
  let action := parse_xml_content output_content "action"
  let action_input_text := parse_xml_content output_content "action_input"
  match json_loads action_input_text with
  | none => .error (Exc.actionParsing xmlParseErrorMsg)
  | some action_input => .ok (action, action_input)

/-- `ReActAgent.tracing_intermediate` (`react.py` line 294): store the step
record for this iteration under key `loop_num`. -/
def tracing_intermediate (st : AgentState) (loop_num : Nat)
    (formatted_prompt llm_generated_output : String) : AgentState :=
  { st with
    steps := setStep st.steps loop_num
               { prompt := formatted_prompt, initial := llm_generated_output } }

/-- `ReActAgent.tracing_final` (`react.py` line 285): record the final
answer on this iteration's step. -/
def tracing_final (st : AgentState) (loop_num : Nat) (final_answer : Json) : AgentState :=
  { st with
    steps := mapStep st.steps loop_num
               (fun s => { s with final_answer := some final_answer }) }

/-- Lines 419-452 of `react.py`: when an action was produced, is truthy and
tools are registered, resolve and run the tool (counted in
`tool_dispatches`), absorbing `RecoverableAgentException`s as
`"<type>: <msg>"` observation text; append `"\nObservation: <result>\n"` to
the raw output and update the step record.  Returns the (possibly updated)
output that line 452 pushes onto the context. -/
def dispatch_tool (env : AgentEnv) (agent : ReActAgent) (loop_num : Nat)
    (action action_input : Json) (llm_generated_output : String) (st : AgentState) :
    Except Exc (String × AgentState) :=
  if jsonTruthy action then
    if agent.tools then
      let st1 := { st with tool_dispatches := st.tool_dispatches + 1 }
      let tr : Except Exc String :=
        match env.run_tool action action_input with
        | .ok out => .ok out
        | .error e =>
          if isRecoverableAgent e then .ok (excTypeName e ++ ": " ++ excMessage e)
          else .error e
      match tr with
      | .error e => .error e
      | .ok tool_result =>
        let updated := llm_generated_output ++ "\nObservation: " ++ tool_result ++ "\n"
        .ok (updated,
          { st1 with steps := mapStep st1.steps loop_num (fun s =>
              { s with tool_using := some action, tool_input := some action_input,
                       tool_output := some tool_result, updated := some updated }) })
    else .ok (llm_generated_output, st)
  else .ok (llm_generated_output, st)

/-- Outcome of one mode-dispatch body. -/
inductive IterOut where
  | final (a : Json) (st : AgentState)
  | next (st : AgentState)
  | fatal (e : Exc) (st : AgentState)

/-- The shared tail of every mode branch (`react.py` lines 419-452): run the
tool dispatch on the parsed action and push the (possibly
observation-extended) output onto the context; a non-recoverable dispatch
exception aborts the iteration. -/
def finish_iteration (env : AgentEnv) (agent : ReActAgent) (loop_num : Nat)
    (action action_input : Json) (out : String) (st : AgentState) : IterOut :=
  match dispatch_tool env agent loop_num action action_input out st with
  | .error e => .fatal e st
  | .ok (updated, st') =>
    .next { st' with previous_responses := st'.previous_responses ++ [updated] }

/-- One successful-model-call iteration body of `ReActAgent._run_agent`
(`react.py` lines 360-452): the `match self.inference_mode` dispatch, the
step recording, the termination checks and the tool dispatch, ending with
the `previous_responses.append` of line 452. -/
def react_iteration (env : AgentEnv) (agent : ReActAgent) (loop_num : Nat)
    (formatted_prompt : String) (r : LLMResult) (st : AgentState) : IterOut :=
  match agent.inference_mode with
  | .DEFAULT =>
    let out := r.output.content
    let st := tracing_intermediate st loop_num formatted_prompt out
    if containsSub out "Answer:" then
      let fa := Json.s (extract_final_answer out)
      .final fa (tracing_final st loop_num fa)
    else
      match env.parse_action out with
      | .error msg => .fatal (Exc.actionParsing msg) st
      | .ok (action, action_input) =>
        finish_iteration env agent loop_num (Json.s action) action_input out st
  | .XML =>
    let out := r.output.content
    let st := tracing_intermediate st loop_num formatted_prompt out
    if containsSub out "<answer>" then
      let fa := Json.s (parse_xml_content out "answer")
      .final fa (tracing_final st loop_num fa)
    else
      match parse_xml_and_extract_info env.json_loads out with
      | .error e => .fatal e st
      | .ok (action, action_input) =>
        finish_iteration env agent loop_num (Json.s action) action_input out st
  | .FUNCTION_CALLING =>
    match r.output.tool_calls with
    | [] => .fatal (Exc.generic "IndexError: tool_calls") st
    | tc :: _ =>
      let function_name := strip tc.name
      match env.json_loads tc.arguments with
      | none => .fatal (Exc.generic "JSONDecodeError") st
      | some j =>
        let out := jsonDumps j
        let st := tracing_intermediate st loop_num formatted_prompt out
        if function_name == "provide_final_answer" then
          match objGet j "answer" with
          | none => .fatal (Exc.generic "KeyError: answer") st
          | some fa => .final fa (tracing_final st loop_num fa)
        else
          match objGet j "action", objGet j "action_input" with
          | some action, some ai =>
            finish_iteration env agent loop_num action (Json.obj [("input", ai)]) out st
          | _, _ => .fatal (Exc.generic "KeyError") st
  | .STRUCTURED_OUTPUT =>
    match env.json_loads r.output.content with
    | none => .fatal (Exc.generic "JSONDecodeError") st
    | some j =>
      match objGet j "action", objGet j "action_input" with
      | some action, some ai =>
        let out := jsonDumps j
        let st := tracing_intermediate st loop_num formatted_prompt out
        if jsonEqStr action "finish" then
          .final ai (tracing_final st loop_num ai)
        else
          finish_iteration env agent loop_num action (Json.obj [("input", ai)]) out st
      | _, _ => .fatal (Exc.generic "KeyError") st

/-- Outcome of the whole reasoning loop. -/
inductive LoopRes where
  | ans (a : Json)
  | err (e : Exc)

/-- The loop of `ReActAgent._run_agent` (`react.py` line 318), recursing on
the remaining number of iterations (`fuel = max_loops - loop_num`).  Per
iteration: format the prompt from the newline-joined context, call the
model; on a non-SUCCESS model result append its content to the context and
continue; otherwise run the mode body; an `ActionParsingException` raised by
it appends `"<type>: <msg>"` to the context and continues; any other
exception propagates; when the fuel runs out, `AgentMaxLoopsReached` is
raised (`react.py` line 459). -/
def runLoop (env : AgentEnv) (agent : ReActAgent) :
    Nat → Nat → AgentState → LoopRes × AgentState
  | _, 0, st => (.err (Exc.maxLoopsReached "Maximum number of loops reached."), st)
  | loop_num, fuel + 1, st =>
    let formatted_prompt :=
      env.generate_prompt (String.intercalate "\n" st.previous_responses)
    let r := env.llm loop_num
    let st := { st with llm_calls := st.llm_calls + 1 }
    if r.status = .SUCCESS then
      match react_iteration env agent loop_num formatted_prompt r st with
      | .final a st => (.ans a, st)
      | .next st => runLoop env agent (loop_num + 1) fuel st
      | .fatal e st =>
        if isActionParsingExc e then
          runLoop env agent (loop_num + 1) fuel
            { st with previous_responses :=
                st.previous_responses ++ [excTypeName e ++ ": " ++ excMessage e] }
        else (.err e, st)
    else
      runLoop env agent (loop_num + 1) fuel
        { st with previous_responses := st.previous_responses ++ [r.output.content] }

/-- `ReActAgent._run_agent` (`react.py` line 302): the loop from iteration 0
with fresh context, step dict and counters. -/
def run_agent (env : AgentEnv) (agent : ReActAgent) : LoopRes × AgentState :=
  runLoop env agent 0 agent.max_loops
    { previous_responses := [], steps := [], llm_calls := 0, tool_dispatches := 0 }

/-- Modelled from the spec: `Agent.execute` (agents/base.py, not in src/)
runs the reasoning loop as the node's execute body (spec §4.4); the final
answer becomes the execute output and the loop's exceptions propagate to the
Execution Core unchanged. -/
def agent_execute (aenv : AgentEnv) (agent : ReActAgent) : Nat → Value → Except Exc Value :=
  fun _ _ =>
    match run_agent aenv agent with
    | (.ans a, _) => .ok (Value.str (jsonDumps a))
    | (.err e, _) => .error e

/-- An agent wrapped as an Execution-Core node with the default error
handling (`max_retries = 0`) and no transformers or caching. -/
def agentNode (aenv : AgentEnv) (agent : ReActAgent) : Node where
  id := "agent"
  execute := agent_execute aenv agent

/-! ## Single-iteration properties of the reasoning loop -/

/-- C6: in DEFAULT inference mode, any loop iteration whose successful model
output contains the literal substring `"Answer:"` terminates the reasoning
loop on that iteration — the loop returns instead of recursing, exactly one
more model call happens and no tool is dispatched — and the returned answer
is the text after the (first occurrence of the) marker, trimmed of
surrounding whitespace. -/
theorem default_answer_marker_terminates (env : AgentEnv) (agent : ReActAgent)
    (i fuel : Nat) (st : AgentState) (j : Nat)
    (hmode : agent.inference_mode = .DEFAULT)
    (hsucc : (env.llm i).status = .SUCCESS)
    (hfind : findSub "Answer:" (env.llm i).output.content = some j) :
    ∃ st',
      runLoop env agent i (fuel + 1) st =
        (.ans (Json.s (strip (strDrop (env.llm i).output.content (j + 7)))), st') ∧
      st'.llm_calls = st.llm_calls + 1 ∧
      st'.tool_dispatches = st.tool_dispatches := by
  have hcontains : containsSub (env.llm i).output.content "Answer:" = true := by
    unfold containsSub
    rw [hfind]
    rfl
  have hextract : extract_final_answer (env.llm i).output.content =
      strip (strDrop (env.llm i).output.content (j + 7)) := by
    unfold extract_final_answer
    rw [hfind]
  refine ⟨tracing_final
      (tracing_intermediate { st with llm_calls := st.llm_calls + 1 } i
        (env.generate_prompt (String.intercalate "\n" st.previous_responses))
        (env.llm i).output.content) i
      (Json.s (extract_final_answer (env.llm i).output.content)), ?_, rfl, rfl⟩
  simp only [runLoop, hsucc, react_iteration, hmode, hcontains, if_true, hextract]

/-- C7: in XML inference mode, an iteration whose successful model output
contains no `"<answer>"` tag and whose extracted `action_input` text is not
valid JSON does not abort the run: the `ActionParsingException` is raised
and absorbed, exactly one recoverable-error entry is appended to the
accumulated context, the step record for this iteration is stored, and the
loop advances to the next iteration. -/
theorem xml_malformed_action_input_recovers (env : AgentEnv) (agent : ReActAgent)
    (i fuel : Nat) (st : AgentState)
    (hmode : agent.inference_mode = .XML)
    (hsucc : (env.llm i).status = .SUCCESS)
    (hnoans : containsSub (env.llm i).output.content "<answer>" = false)
    (hbad : env.json_loads (parse_xml_content
      (parse_xml_content (env.llm i).output.content "output") "action_input") = none) :
    runLoop env agent i (fuel + 1) st =
      runLoop env agent (i + 1) fuel
        { previous_responses := st.previous_responses ++
            ["ActionParsingException: " ++ xmlParseErrorMsg],
          steps := setStep st.steps i
            { prompt := env.generate_prompt (String.intercalate "\n" st.previous_responses),
              initial := (env.llm i).output.content },
          llm_calls := st.llm_calls + 1,
          tool_dispatches := st.tool_dispatches } := by
  have hparse : parse_xml_and_extract_info env.json_loads (env.llm i).output.content =
      .error (Exc.actionParsing xmlParseErrorMsg) := by
    simp only [parse_xml_and_extract_info, hbad]
  simp only [runLoop, hsucc, react_iteration, hmode, tracing_intermediate, hnoans,
    Bool.false_eq_true, if_false, hparse, isActionParsingExc, if_true, excTypeName,
    excMessage]
  rfl

/-- C9: in FUNCTION_CALLING inference mode, an iteration whose successful
model response selects the function name `"provide_final_answer"` (after
stripping) with JSON arguments whose `answer` field is `"42"` terminates the
loop on that iteration returning `"42"`, with no tool dispatched and exactly
one more model call. -/
theorem function_calling_final_answer (env : AgentEnv) (agent : ReActAgent)
    (i fuel : Nat) (st : AgentState) (fname args : String)
    (rest : List ToolCallFunction) (j : Json)
    (hmode : agent.inference_mode = .FUNCTION_CALLING)
    (hsucc : (env.llm i).status = .SUCCESS)
    (htc : (env.llm i).output.tool_calls = { name := fname, arguments := args } :: rest)
    (hname : strip fname = "provide_final_answer")
    (hjson : env.json_loads args = some j)
    (hans : objGet j "answer" = some (Json.s "42")) :
    ∃ st',
      runLoop env agent i (fuel + 1) st = (.ans (Json.s "42"), st') ∧
      st'.llm_calls = st.llm_calls + 1 ∧
      st'.tool_dispatches = st.tool_dispatches := by
  refine ⟨tracing_final
      (tracing_intermediate { st with llm_calls := st.llm_calls + 1 } i
        (env.generate_prompt (String.intercalate "\n" st.previous_responses))
        (jsonDumps j)) i (Json.s "42"), ?_, rfl, rfl⟩
  simp only [runLoop, hsucc, react_iteration, hmode, htc, hjson, hname,
    beq_self_eq_true, if_true, hans]

/-- A model that answers immediately in DEFAULT mode, for the C6 witness. -/
def c6Env : AgentEnv where
  llm := fun _ =>
    { status := .SUCCESS,
      output := { content := "Thought: I can answer\nAnswer: 42 is the answer" } }
  json_loads := fun _ => none
  generate_prompt := fun ctx => ctx
  parse_action := fun _ => .error "unused"
  run_tool := fun _ _ => .ok "unused"

/-- A DEFAULT-mode agent with three loops, for the C6 witness. -/
def c6Agent : ReActAgent where
  max_loops := 3

/-- Witness for C6: the loop returns the trimmed text after `"Answer:"` on
iteration 0 with one model call and no tool dispatch. -/
theorem default_answer_marker_terminates_witness :
    ∃ st', runLoop c6Env c6Agent 0 3
        { previous_responses := [], steps := [], llm_calls := 0, tool_dispatches := 0 } =
        (.ans (Json.s "42 is the answer"), st') ∧
      st'.llm_calls = 0 + 1 ∧
      st'.tool_dispatches = 0 :=
  default_answer_marker_terminates c6Env c6Agent 0 2
    { previous_responses := [], steps := [], llm_calls := 0, tool_dispatches := 0 }
    22 rfl rfl rfl

/-- The XML model output with a non-JSON `action_input`, for C7. -/
def c7Content : String :=
  "<output><action>search</action><action_input>not json</action_input></output>"

/-- A model emitting XML with non-JSON `action_input`, for the C7 witness. -/
def c7Env : AgentEnv where
  llm := fun _ => { status := .SUCCESS, output := { content := c7Content } }
  json_loads := fun _ => none
  generate_prompt := fun ctx => ctx
  parse_action := fun _ => .error "unused"
  run_tool := fun _ _ => .ok "unused"

/-- An XML-mode agent with two loops, for the C7 witness. -/
def c7Agent : ReActAgent where
  max_loops := 2
  inference_mode := .XML

/-- Witness for C7: the malformed `action_input` appends exactly one
recoverable-error entry, stores the step record, and advances the loop. -/
theorem xml_malformed_action_input_recovers_witness :
    runLoop c7Env c7Agent 0 2
        { previous_responses := [], steps := [], llm_calls := 0, tool_dispatches := 0 } =
      runLoop c7Env c7Agent 1 1
        { previous_responses := ["ActionParsingException: " ++ xmlParseErrorMsg],
          steps := [(0, { prompt := "", initial := c7Content })],
          llm_calls := 1, tool_dispatches := 0 } :=
  xml_malformed_action_input_recovers c7Env c7Agent 0 1
    { previous_responses := [], steps := [], llm_calls := 0, tool_dispatches := 0 }
    rfl rfl rfl rfl

/-- A model that selects `provide_final_answer(answer="42")`, for the C9
witness. -/
def c9Env : AgentEnv where
  llm := fun _ =>
    { status := .SUCCESS,
      output :=
        { content := "",
          tool_calls := [{ name := " provide_final_answer ", arguments := "args-blob" }] } }
  json_loads := fun _ =>
    some (Json.obj [("thought", Json.s "done"), ("answer", Json.s "42")])
  generate_prompt := fun ctx => ctx
  parse_action := fun _ => .error "unused"
  run_tool := fun _ _ => .ok "unused"

/-- A FUNCTION_CALLING-mode agent, for the C9 witness. -/
def c9Agent : ReActAgent where
  max_loops := 4
  inference_mode := .FUNCTION_CALLING

/-- Witness for C9: the run returns `"42"` on iteration 0, with one model
call and no tool dispatch. -/
theorem function_calling_final_answer_witness :
    ∃ st', runLoop c9Env c9Agent 0 4
        { previous_responses := [], steps := [], llm_calls := 0, tool_dispatches := 0 } =
        (.ans (Json.s "42"), st') ∧
      st'.llm_calls = 0 + 1 ∧
      st'.tool_dispatches = 0 :=
  function_calling_final_answer c9Env c9Agent 0 3
    { previous_responses := [], steps := [], llm_calls := 0, tool_dispatches := 0 }
    " provide_final_answer " "args-blob" []
    (Json.obj [("thought", Json.s "done"), ("answer", Json.s "42")])
    rfl rfl rfl rfl rfl rfl

/-! ## IntermediateStep bookkeeping -/

/-- `mapStep` never changes the key list. -/
theorem mapStep_keys (l : List (Nat × AgentIntermediateStep)) (k : Nat)
    (f : AgentIntermediateStep → AgentIntermediateStep) :
    (mapStep l k f).map Prod.fst = l.map Prod.fst := by
  unfold mapStep
  rw [List.map_map]
  apply List.map_congr_left
  intro p _
  by_cases h : p.1 = k <;> simp [h]

/-- `setStep` on a fresh key appends it. -/
theorem setStep_keys_not_mem (l : List (Nat × AgentIntermediateStep)) (k : Nat)
    (v : AgentIntermediateStep) (h : k ∉ l.map Prod.fst) :
    (setStep l k v).map Prod.fst = l.map Prod.fst ++ [k] := by
  induction l with
  | nil => rfl
  | cons p rest ih =>
    obtain ⟨k', v'⟩ := p
    simp only [List.map_cons, List.mem_cons, not_or] at h
    obtain ⟨h1, h2⟩ := h
    simp only [setStep]
    rw [if_neg (fun hp => h1 hp.symm)]
    simp only [List.map_cons, List.cons_append]
    rw [ih h2]

/-- `setStep` on an existing key keeps the key list. -/
theorem setStep_keys_mem (l : List (Nat × AgentIntermediateStep)) (k : Nat)
    (v : AgentIntermediateStep) (h : k ∈ l.map Prod.fst) :
    (setStep l k v).map Prod.fst = l.map Prod.fst := by
  induction l with
  | nil => simp at h
  | cons p rest ih =>
    obtain ⟨k', v'⟩ := p
    simp only [List.map_cons, List.mem_cons] at h
    simp only [setStep]
    by_cases hk : k' = k
    · rw [if_pos hk]
      simp [hk]
    · rw [if_neg hk]
      simp only [List.map_cons]
      rcases h with h | h
      · exact absurd h.symm hk
      · rw [ih h]

/-- The key list after `setStep` either stays put (existing key) or gains the
new key at the end. -/
theorem setStep_keys_cases (l : List (Nat × AgentIntermediateStep)) (k : Nat)
    (v : AgentIntermediateStep) :
    (setStep l k v).map Prod.fst = l.map Prod.fst ∨
    ((setStep l k v).map Prod.fst = l.map Prod.fst ++ [k] ∧ k ∉ l.map Prod.fst) := by
  by_cases h : k ∈ l.map Prod.fst
  · exact Or.inl (setStep_keys_mem l k v h)
  · exact Or.inr ⟨setStep_keys_not_mem l k v h, h⟩

/-- A successful tool dispatch leaves the step keys, the model-call counter
and the context unchanged (it only counts the dispatch, updates the current
step in place, and returns the observation-extended output). -/
theorem dispatch_tool_state (env : AgentEnv) (agent : ReActAgent) (loop_num : Nat)
    (action action_input : Json) (out : String) (st : AgentState) (upd : String)
    (st' : AgentState)
    (h : dispatch_tool env agent loop_num action action_input out st = .ok (upd, st')) :
    st'.steps.map Prod.fst = st.steps.map Prod.fst ∧
    st'.llm_calls = st.llm_calls := by
  unfold dispatch_tool at h
  by_cases ht : jsonTruthy action = true
  · rw [if_pos ht] at h
    by_cases htools : agent.tools = true
    · rw [if_pos htools] at h
      cases hrt : env.run_tool action action_input with
      | ok o =>
        simp only [hrt] at h
        injection h with hp
        injection hp with h1 h2
        subst h2
        refine ⟨?_, rfl⟩
        dsimp only
        exact mapStep_keys _ _ _
      | error e =>
        simp only [hrt] at h
        by_cases hrec : isRecoverableAgent e = true
        · simp only [hrec, if_true] at h
          injection h with hp
          injection hp with h1 h2
          subst h2
          refine ⟨?_, rfl⟩
          dsimp only
          exact mapStep_keys _ _ _
        · simp only [hrec, Bool.false_eq_true, if_false] at h
          exact Except.noConfusion h
    · rw [if_neg htools] at h
      injection h with hp
      injection hp with h1 h2
      subst h2
      exact ⟨rfl, rfl⟩
  · rw [if_neg ht] at h
    injection h with hp
    injection hp with h1 h2
    subst h2
    exact ⟨rfl, rfl⟩

/-- The state carried by an iteration outcome. -/
def iterSt : IterOut → AgentState
  | .final _ st => st
  | .next st => st
  | .fatal _ st => st

/-- `finish_iteration` preserves the step keys. -/
theorem finish_iteration_keys (env : AgentEnv) (agent : ReActAgent) (loop_num : Nat)
    (action action_input : Json) (out : String) (st : AgentState) :
    (iterSt (finish_iteration env agent loop_num action action_input out st)).steps.map
        Prod.fst = st.steps.map Prod.fst := by
  unfold finish_iteration
  cases hd : dispatch_tool env agent loop_num action action_input out st with
  | error e => rfl
  | ok pr =>
    obtain ⟨upd, st'⟩ := pr
    have hks := (dispatch_tool_state _ _ _ _ _ _ _ _ _ hd).1
    dsimp only [iterSt]
    exact hks

/-- Whatever one iteration body does, the step-key list either stays put
(model payload unusable before recording) or gains exactly this iteration's
`loop_num` at the end (and only when it was not present). -/
theorem react_iteration_keys (env : AgentEnv) (agent : ReActAgent) (loop_num : Nat)
    (fp : String) (r : LLMResult) (st : AgentState) :
    (iterSt (react_iteration env agent loop_num fp r st)).steps.map Prod.fst =
        st.steps.map Prod.fst ∨
    ((iterSt (react_iteration env agent loop_num fp r st)).steps.map Prod.fst =
        st.steps.map Prod.fst ++ [loop_num] ∧ loop_num ∉ st.steps.map Prod.fst) := by
  cases hm : agent.inference_mode with
  | DEFAULT =>
    simp only [react_iteration, hm]
    by_cases hans : containsSub r.output.content "Answer:" = true
    · simp only [hans, if_true, iterSt, tracing_final, tracing_intermediate, mapStep_keys]
      exact setStep_keys_cases st.steps loop_num _
    · simp only [hans, Bool.false_eq_true, if_false]
      cases hp : env.parse_action r.output.content with
      | error msg =>
        try simp only [hp]
        simp only [iterSt, tracing_intermediate]
        exact setStep_keys_cases st.steps loop_num _
      | ok pr =>
        obtain ⟨action, ainput⟩ := pr
        try simp only [hp]
        rw [finish_iteration_keys]
        try dsimp only
        exact setStep_keys_cases st.steps loop_num _
  | XML =>
    simp only [react_iteration, hm]
    by_cases hans : containsSub r.output.content "<answer>" = true
    · simp only [hans, if_true, iterSt, tracing_final, tracing_intermediate, mapStep_keys]
      exact setStep_keys_cases st.steps loop_num _
    · simp only [hans, Bool.false_eq_true, if_false]
      cases hp : parse_xml_and_extract_info env.json_loads r.output.content with
      | error e =>
        try simp only [hp]
        simp only [iterSt, tracing_intermediate]
        exact setStep_keys_cases st.steps loop_num _
      | ok pr =>
        obtain ⟨action, ainput⟩ := pr
        try simp only [hp]
        rw [finish_iteration_keys]
        try dsimp only
        exact setStep_keys_cases st.steps loop_num _
  | FUNCTION_CALLING =>
    simp only [react_iteration, hm]
    cases htc : r.output.tool_calls with
    | nil =>
      try simp only [htc]
      dsimp only [iterSt]
      exact Or.inl rfl
    | cons tc rest =>
      try simp only [htc]
      cases hj : env.json_loads tc.arguments with
      | none =>
        try simp only [hj]
        dsimp only [iterSt]
        exact Or.inl rfl
      | some j =>
        try simp only [hj]
        by_cases hn : (strip tc.name == "provide_final_answer") = true
        · simp only [hn, if_true]
          cases ha : objGet j "answer" with
          | none =>
            try simp only [ha]
            simp only [iterSt, tracing_intermediate]
            exact setStep_keys_cases st.steps loop_num _
          | some fa =>
            try simp only [ha]
            simp only [iterSt, tracing_final, tracing_intermediate, mapStep_keys]
            exact setStep_keys_cases st.steps loop_num _
        · simp only [hn, Bool.false_eq_true, if_false]
          cases hact : objGet j "action" with
          | none =>
            try simp only [hact]
            simp only [iterSt, tracing_intermediate]
            exact setStep_keys_cases st.steps loop_num _
          | some action =>
            try simp only [hact]
            cases hai : objGet j "action_input" with
            | none =>
              try simp only [hai]
              simp only [iterSt, tracing_intermediate]
              exact setStep_keys_cases st.steps loop_num _
            | some ai =>
              try simp only [hai]
              rw [finish_iteration_keys]
              try dsimp only
              exact setStep_keys_cases st.steps loop_num _
  | STRUCTURED_OUTPUT =>
    simp only [react_iteration, hm]
    cases hj : env.json_loads r.output.content with
    | none =>
      try simp only [hj]
      dsimp only [iterSt]
      exact Or.inl rfl
    | some j =>
      try simp only [hj]
      cases hact : objGet j "action" with
      | none =>
        try simp only [hact]
        dsimp only [iterSt]
        exact Or.inl rfl
      | some action =>
        try simp only [hact]
        cases hai : objGet j "action_input" with
        | none =>
          try simp only [hai]
          dsimp only [iterSt]
          exact Or.inl rfl
        | some ai =>
          try simp only [hai]
          by_cases hf : jsonEqStr action "finish" = true
          · simp only [hf, if_true, iterSt, tracing_final, tracing_intermediate, mapStep_keys]
            exact setStep_keys_cases st.steps loop_num _
          · simp only [hf, Bool.false_eq_true, if_false]
            rw [finish_iteration_keys]
            try dsimp only
            exact setStep_keys_cases st.steps loop_num _

/-- Appending an element larger than everything preserves strict increase. -/
theorem chain_lt_append (ks : List Nat) (k : Nat)
    (h1 : List.Chain' (· < ·) ks) (h2 : ∀ x ∈ ks, x < k) :
    List.Chain' (· < ·) (ks ++ [k]) := by
  induction ks with
  | nil => simp
  | cons a rest ih =>
    rw [List.cons_append, List.chain'_cons']
    rw [List.chain'_cons'] at h1
    refine ⟨?_, ih h1.2 (fun x hx => h2 x (List.mem_cons_of_mem a hx))⟩
    intro y hy
    cases rest with
    | nil =>
      simp at hy
      subst hy
      exact h2 a (List.mem_cons_self a [])
    | cons b rest' =>
      rw [List.cons_append] at hy
      simp at hy
      subst hy
      exact h1.1 b (by simp)

/-- One iteration's effect on the step-key invariants: keys stay strictly
increasing, bounded by the next iteration index, and recorded only under a
successful model call. -/
theorem step_state_invariant (env : AgentEnv) (loop_num : Nat) (st : AgentState)
    (ks' : List Nat)
    (h1 : List.Chain' (· < ·) (st.steps.map Prod.fst))
    (h2 : ∀ k ∈ st.steps.map Prod.fst, k < loop_num)
    (h3 : ∀ k ∈ st.steps.map Prod.fst, (env.llm k).status = .SUCCESS)
    (hs : (env.llm loop_num).status = .SUCCESS)
    (hk : ks' = st.steps.map Prod.fst ∨ ks' = st.steps.map Prod.fst ++ [loop_num]) :
    List.Chain' (· < ·) ks' ∧ (∀ k ∈ ks', k < loop_num + 1) ∧
      (∀ k ∈ ks', (env.llm k).status = .SUCCESS) := by
  rcases hk with hk | hk <;> subst hk
  · exact ⟨h1, fun k hkk => Nat.lt_succ_of_lt (h2 k hkk), h3⟩
  · refine ⟨chain_lt_append _ _ h1 h2, ?_, ?_⟩
    · intro k hkk
      rcases List.mem_append.mp hkk with h | h
      · exact Nat.lt_succ_of_lt (h2 k h)
      · simp at h
        omega
    · intro k hkk
      rcases List.mem_append.mp hkk with h | h
      · exact h3 k h
      · simp at h
        subst h
        exact hs

/-- The reasoning-loop invariant on stored IntermediateStep indices: from
any state whose keys are strictly increasing, below the current iteration,
and recorded under successful model calls, the loop's final state keeps the
keys strictly increasing, below the last iteration bound, and recorded only
under successful model calls. -/
theorem runLoop_steps_invariant (env : AgentEnv) (agent : ReActAgent) :
    ∀ fuel loop_num st,
      List.Chain' (· < ·) (st.steps.map Prod.fst) →
      (∀ k ∈ st.steps.map Prod.fst, k < loop_num) →
      (∀ k ∈ st.steps.map Prod.fst, (env.llm k).status = .SUCCESS) →
      List.Chain' (· < ·) ((runLoop env agent loop_num fuel st).2.steps.map Prod.fst) ∧
      (∀ k ∈ (runLoop env agent loop_num fuel st).2.steps.map Prod.fst,
        k < loop_num + fuel) ∧
      (∀ k ∈ (runLoop env agent loop_num fuel st).2.steps.map Prod.fst,
        (env.llm k).status = .SUCCESS) := by
  intro fuel
  induction fuel with
  | zero =>
    intro loop_num st h1 h2 h3
    refine ⟨h1, fun k hk => ?_, h3⟩
    have := h2 k hk
    omega
  | succ fuel ih =>
    intro loop_num st h1 h2 h3
    by_cases hs : (env.llm loop_num).status = .SUCCESS
    · have hkeys := react_iteration_keys env agent loop_num
        (env.generate_prompt (String.intercalate "\n" st.previous_responses))
        (env.llm loop_num) { st with llm_calls := st.llm_calls + 1 }
      cases hit : react_iteration env agent loop_num
          (env.generate_prompt (String.intercalate "\n" st.previous_responses))
          (env.llm loop_num) { st with llm_calls := st.llm_calls + 1 } with
      | final a st' =>
        rw [hit] at hkeys
        dsimp only [iterSt] at hkeys
        have hrl : runLoop env agent loop_num (fuel + 1) st = (.ans a, st') := by
          simp only [runLoop, hs, eq_self_iff_true, if_true, hit]
        rw [hrl]
        have H := step_state_invariant env loop_num st _ h1 h2 h3 hs
          (hkeys.imp id And.left)
        exact ⟨H.1, fun k hk => by have := H.2.1 k hk; omega, H.2.2⟩
      | next st' =>
        rw [hit] at hkeys
        dsimp only [iterSt] at hkeys
        have hrl : runLoop env agent loop_num (fuel + 1) st =
            runLoop env agent (loop_num + 1) fuel st' := by
          simp only [runLoop, hs, eq_self_iff_true, if_true, hit]
        rw [hrl]
        have H := step_state_invariant env loop_num st _ h1 h2 h3 hs
          (hkeys.imp id And.left)
        have H2 := ih (loop_num + 1) st' H.1 H.2.1 H.2.2
        exact ⟨H2.1, fun k hk => by have := H2.2.1 k hk; omega, H2.2.2⟩
      | fatal e st' =>
        rw [hit] at hkeys
        dsimp only [iterSt] at hkeys
        have H := step_state_invariant env loop_num st _ h1 h2 h3 hs
          (hkeys.imp id And.left)
        by_cases hap : isActionParsingExc e = true
        · have hrl : runLoop env agent loop_num (fuel + 1) st =
              runLoop env agent (loop_num + 1) fuel
                { st' with previous_responses :=
                    st'.previous_responses ++ [excTypeName e ++ ": " ++ excMessage e] } := by
            simp only [runLoop, hs, eq_self_iff_true, if_true, hit, hap]
          rw [hrl]
          have H2 := ih (loop_num + 1)
            { st' with previous_responses :=
                st'.previous_responses ++ [excTypeName e ++ ": " ++ excMessage e] }
            H.1 H.2.1 H.2.2
          exact ⟨H2.1, fun k hk => by have := H2.2.1 k hk; omega, H2.2.2⟩
        · have hrl : runLoop env agent loop_num (fuel + 1) st = (.err e, st') := by
            simp only [runLoop, hs, eq_self_iff_true, if_true, hit, hap,
              Bool.false_eq_true, if_false]
          rw [hrl]
          exact ⟨H.1, fun k hk => by have := H.2.1 k hk; omega, H.2.2⟩
    · have hrl : runLoop env agent loop_num (fuel + 1) st =
          runLoop env agent (loop_num + 1) fuel
            { st with llm_calls := st.llm_calls + 1,
                      previous_responses :=
                        st.previous_responses ++ [(env.llm loop_num).output.content] } := by
        simp only [runLoop, eq_false hs, if_false]
      rw [hrl]
      have H2 := ih (loop_num + 1)
        { st with llm_calls := st.llm_calls + 1,
                  previous_responses :=
                    st.previous_responses ++ [(env.llm loop_num).output.content] }
        h1 (fun k hk => by have := h2 k hk; omega) h3
      exact ⟨H2.1, fun k hk => by have := H2.2.1 k hk; omega, H2.2.2⟩

/-- A model capability that fails its only call, for the C8 counterexample. -/
def c8Env : AgentEnv where
  llm := fun _ => { status := .FAILURE, output := { content := "model overloaded" } }
  json_loads := fun _ => none
  generate_prompt := fun ctx => ctx
  parse_action := fun _ => .error "unused"
  run_tool := fun _ _ => .ok "unused"

/-- A one-loop DEFAULT-mode agent, for the C8 counterexample. -/
def c8Agent : ReActAgent where
  max_loops := 1

/-- C8 counterexample: iteration 0 runs (the model is called once) with a
model-call-failure outcome, yet no IntermediateStep record is stored — the
claim demands a record for every iteration's `loop_num` regardless of
outcome, starting at 0. -/
theorem steps_record_counterexample :
    (run_agent c8Env c8Agent).2.llm_calls = 1 ∧
    (run_agent c8Env c8Agent).2.steps = [] :=
  ⟨rfl, rfl⟩

/-- C8 (amended): within one run, the indices of stored IntermediateStep
records are strictly increasing (hence unique), and every stored index
belongs to an iteration whose model call returned SUCCESS — an iteration
whose model call fails (or whose schema-mode payload does not decode) stores
no record, so the indices need not start at 0. -/
theorem steps_indices_monotone (env : AgentEnv) (agent : ReActAgent) :
    List.Chain' (· < ·) ((run_agent env agent).2.steps.map Prod.fst) ∧
    ∀ k ∈ (run_agent env agent).2.steps.map Prod.fst,
      (env.llm k).status = .SUCCESS := by
  have h := runLoop_steps_invariant env agent agent.max_loops 0
    { previous_responses := [], steps := [], llm_calls := 0, tool_dispatches := 0 }
    (by simp) (by simp) (by simp)
  exact ⟨h.1, h.2.2⟩

/-! ## Loop exhaustion -/

/-- With a benign tool capability (failures only of the recoverable kind),
the dispatch block never propagates an exception. -/
theorem dispatch_tool_benign (env : AgentEnv) (agent : ReActAgent) (loop_num : Nat)
    (action action_input : Json) (out : String) (st : AgentState)
    (htool : ∀ a inp e, env.run_tool a inp = .error e → isRecoverableAgent e = true) :
    ∃ upd st', dispatch_tool env agent loop_num action action_input out st =
      .ok (upd, st') := by
  unfold dispatch_tool
  by_cases ht : jsonTruthy action = true
  · rw [if_pos ht]
    by_cases htools : agent.tools = true
    · rw [if_pos htools]
      cases hrt : env.run_tool action action_input with
      | ok o =>
        simp only [hrt]
        exact ⟨_, _, rfl⟩
      | error e =>
        simp only [hrt, htool _ _ _ hrt, if_true]
        exact ⟨_, _, rfl⟩
    · rw [if_neg htools]
      exact ⟨_, _, rfl⟩
  · rw [if_neg ht]
    exact ⟨_, _, rfl⟩

/-- A DEFAULT-mode iteration with a successful, non-terminal model output and
a benign tool capability always advances the loop: the model-call counter
grows by one and this iteration's step record is appended. -/
theorem default_nonterminal_step (env : AgentEnv) (agent : ReActAgent)
    (i fuel : Nat) (st : AgentState)
    (hmode : agent.inference_mode = .DEFAULT)
    (hsucc : (env.llm i).status = .SUCCESS)
    (hnoans : containsSub (env.llm i).output.content "Answer:" = false)
    (htool : ∀ a inp e, env.run_tool a inp = .error e → isRecoverableAgent e = true)
    (hfresh : i ∉ st.steps.map Prod.fst) :
    ∃ st',
      runLoop env agent i (fuel + 1) st = runLoop env agent (i + 1) fuel st' ∧
      st'.llm_calls = st.llm_calls + 1 ∧
      st'.steps.map Prod.fst = st.steps.map Prod.fst ++ [i] := by
  cases hp : env.parse_action (env.llm i).output.content with
  | error msg =>
    refine ⟨{ previous_responses :=
                st.previous_responses ++ ["ActionParsingException" ++ ": " ++ msg],
              steps := setStep st.steps i
                  { prompt :=
                      env.generate_prompt (String.intercalate "\n" st.previous_responses),
                    initial := (env.llm i).output.content },
              llm_calls := st.llm_calls + 1,
              tool_dispatches := st.tool_dispatches }, ?_, rfl, ?_⟩
    · simp only [runLoop, hsucc, eq_self_iff_true, if_true, react_iteration, hmode,
        hnoans, Bool.false_eq_true, if_false, hp, isActionParsingExc, excTypeName,
        excMessage, tracing_intermediate]
    · dsimp only
      exact setStep_keys_not_mem st.steps i _ hfresh
  | ok pr =>
    obtain ⟨action, ainput⟩ := pr
    obtain ⟨upd, st3, hd⟩ := dispatch_tool_benign env agent i (Json.s action) ainput
      (env.llm i).output.content
      (tracing_intermediate { st with llm_calls := st.llm_calls + 1 } i
        (env.generate_prompt (String.intercalate "\n" st.previous_responses))
        (env.llm i).output.content)
      htool
    have hds := dispatch_tool_state _ _ _ _ _ _ _ _ _ hd
    refine ⟨{ st3 with previous_responses := st3.previous_responses ++ [upd] }, ?_, ?_, ?_⟩
    · simp only [runLoop, hsucc, eq_self_iff_true, if_true, react_iteration, hmode,
        hnoans, Bool.false_eq_true, if_false, hp, finish_iteration, hd]
    · dsimp only
      rw [hds.2]
      rfl
    · dsimp only
      rw [hds.1]
      simp only [tracing_intermediate]
      exact setStep_keys_not_mem st.steps i _ hfresh

/-- For a plain node (no transformer, no caching, no retries, no timeout,
no dependencies) whose execute raises, the pipeline body raises that error
after node-start and one execute attempt. -/
theorem runBody_simple_error (env : Env) (node : Node)
    (input_data : List (String × Value)) (e : Exc)
    (hti : node.input_transformer.path = none)
    (hts : node.input_transformer.selector = none)
    (hc : node.caching.enabled = false)
    (hmr : node.error_handling.max_retries = 0)
    (hto : node.times_out 0 = false)
    (hex : node.execute 0 (mergedTracingInput input_data []) = .error e) :
    runBody env node input_data [] =
      (.error e, [Event.nodeStart (mergedTracingInput input_data []),
        Event.executeStart 0, Event.executeError 0 e]) := by
  have heff : effectiveInput env node input_data [] =
      .ok (mergedTracingInput input_data []) := by
    simp only [effectiveInput, hti, hts, Option.isSome_none, Bool.or_self,
      Bool.false_eq_true, if_false]
  have hco : cacheOrExecute env node (mergedTracingInput input_data []) =
      (.error e, [Event.executeStart 0, Event.executeError 0 e]) := by
    simp only [cacheOrExecute, hc, Bool.false_and, execute_with_retry, hmr,
      retryAux, attemptExec, hto, Bool.false_eq_true, if_false, hex]
  simp only [runBody, heff, hco]

/-- C5: for a DEFAULT-mode ReAct agent with `max_loops = 3`, a model
capability that succeeds on every call but never produces a terminal answer,
and a tool capability whose failures are all recoverable, the agent run
performs exactly 3 loop iterations (3 model calls) and then raises the
non-recoverable `AgentMaxLoopsReached` error, with exactly 3
IntermediateStep records (indices 0, 1, 2) stored at that point; wrapped as
an Execution-Core node, this surfaces as an ordinary FAILURE result whose
recoverable flag is false. -/
theorem max_loops_exhaustion (env : AgentEnv) (agent : ReActAgent)
    (hmode : agent.inference_mode = .DEFAULT)
    (hml : agent.max_loops = 3)
    (hsucc : ∀ i, (env.llm i).status = .SUCCESS)
    (hnoans : ∀ i, containsSub (env.llm i).output.content "Answer:" = false)
    (htool : ∀ a inp e, env.run_tool a inp = .error e → isRecoverableAgent e = true) :
    (∃ st, run_agent env agent =
        (.err (Exc.maxLoopsReached "Maximum number of loops reached."), st) ∧
      st.llm_calls = 3 ∧ st.steps.map Prod.fst = [0, 1, 2]) ∧
    isRecoverableAgent (Exc.maxLoopsReached "Maximum number of loops reached.") = false ∧
    (∀ (nenv : Env) (input_data : List (String × Value)),
      ∃ res evs, run nenv (agentNode env agent) input_data [] = .ok (res, evs) ∧
        res.status = .FAILURE ∧
        res.output = format_value (Exc.maxLoopsReached "Maximum number of loops reached.")
          (some false) ∧
        vLookup res.output "recoverable" = some (Value.bool false)) := by
  obtain ⟨s1, he1, hl1, hk1⟩ := default_nonterminal_step env agent 0 2
    { previous_responses := [], steps := [], llm_calls := 0, tool_dispatches := 0 }
    hmode (hsucc 0) (hnoans 0) htool (by simp)
  obtain ⟨s2, he2, hl2, hk2⟩ := default_nonterminal_step env agent 1 1 s1
    hmode (hsucc 1) (hnoans 1) htool (by rw [hk1]; simp)
  obtain ⟨s3, he3, hl3, hk3⟩ := default_nonterminal_step env agent 2 0 s2
    hmode (hsucc 2) (hnoans 2) htool (by rw [hk2, hk1]; simp)
  have he1' : runLoop env agent 0 3
      { previous_responses := [], steps := [], llm_calls := 0, tool_dispatches := 0 } =
      runLoop env agent 1 2 s1 := he1
  have he2' : runLoop env agent 1 2 s1 = runLoop env agent 2 1 s2 := he2
  have he3' : runLoop env agent 2 1 s2 = runLoop env agent 3 0 s3 := he3
  have hrun : run_agent env agent =
      (.err (Exc.maxLoopsReached "Maximum number of loops reached."), s3) := by
    unfold run_agent
    rw [hml, he1', he2', he3']
    rfl
  have hllm : s3.llm_calls = 3 := by
    rw [hl3, hl2, hl1]
  have hkeys : s3.steps.map Prod.fst = [0, 1, 2] := by
    rw [hk3, hk2, hk1]
    rfl
  refine ⟨⟨s3, hrun, hllm, hkeys⟩, rfl, ?_⟩
  intro nenv input_data
  have hex : (agentNode env agent).execute 0 (mergedTracingInput input_data []) =
      .error (Exc.maxLoopsReached "Maximum number of loops reached.") := by
    show agent_execute env agent 0 (mergedTracingInput input_data []) = _
    unfold agent_execute
    rw [hrun]
  have hbody := runBody_simple_error nenv (agentNode env agent) input_data
    (Exc.maxLoopsReached "Maximum number of loops reached.") rfl rfl rfl rfl rfl hex
  rcases run_cases nenv (agentNode env agent) input_data [] rfl with
    ⟨ti, tout, evs, heff, hb, hr⟩ | ⟨e', evs, hb, hr⟩
  · rw [hbody] at hb
    simp at hb
  · rw [hbody] at hb
    injection hb with hb1 hb2
    injection hb1 with hbe
    subst hbe
    exact ⟨_, _, hr, rfl, rfl, rfl⟩

/-- A DEFAULT-mode model that always proposes a tool call and never answers,
for the C5 witness. -/
def c5Env : AgentEnv where
  llm := fun _ =>
    { status := .SUCCESS,
      output := { content := "Thought: still thinking\nAction: search\nAction Input: none" } }
  json_loads := fun _ => none
  generate_prompt := fun ctx => ctx
  parse_action := fun _ => .ok ("search", Json.s "none")
  run_tool := fun _ _ => .ok "observation text"

/-- A three-loop DEFAULT-mode agent with tools, for the C5 witness. -/
def c5Agent : ReActAgent where
  max_loops := 3
  tools := true

/-- Witness for C5: exactly three model calls, records 0-2, the
`AgentMaxLoopsReached` error, and a non-recoverable FAILURE at node level. -/
theorem max_loops_exhaustion_witness :
    (∃ st, run_agent c5Env c5Agent =
        (.err (Exc.maxLoopsReached "Maximum number of loops reached."), st) ∧
      st.llm_calls = 3 ∧ st.steps.map Prod.fst = [0, 1, 2]) ∧
    (∃ res evs, run plainEnv (agentNode c5Env c5Agent) [] [] = .ok (res, evs) ∧
      res.status = .FAILURE ∧
      res.output = format_value (Exc.maxLoopsReached "Maximum number of loops reached.")
        (some false) ∧
      vLookup res.output "recoverable" = some (Value.bool false)) := by
  have h := max_loops_exhaustion c5Env c5Agent rfl rfl (fun _ => rfl) (fun _ => rfl)
    (fun a inp e he => Except.noConfusion he)
  exact ⟨h.1, h.2.2 plainEnv []⟩
